import Mathlib

/-!
# Telugu learning frontend: learner dashboard recordings and video URL helpers

A shallow embedding of the recording logic of `src/pages/LearnerDashboard.tsx`
(loading and merging recordings, the recording handlers, submission), of
`src/utils/videoUtils.ts`, of the evaluation handler of
`src/components/SimpleVoiceEvaluationInterface.tsx` and of the default puzzle of
`debug-word-puzzles.js`, followed by the properties proved about them.

Modelling conventions.
* JavaScript arrays are lists; React state setters are applied in program order.
* A timestamp is the time value of a `Date`: an integer number of milliseconds,
  or `none` for an invalid date, whose time value is `NaN`. Durations are whole
  seconds (the recording timer counts in steps of one).
* An event handler reads the state of the render that created it, while its state
  updates apply to the state at the time it runs; the two are separate arguments.
* Values that the browser draws from the clock or from `Math.random` are inputs.
* Strings whose content is inspected (URLs, base64 text) are lists of characters.
* The browser functions `btoa` and the decoding of a base64 `data:` URL are
  standard base64 on lists of bytes; the number of arguments the engine accepts in
  one call is a parameter.
-/

namespace LearnerDashboard

/-! ## JavaScript array helpers -/

/-- The method `Array.prototype.findIndex`: the index of the first element satisfying `p`,
or `-1` when there is none. -/
def findIndex {α : Type} (p : α → Bool) (l : List α) : Int :=
  if l.findIdx p < l.length then (l.findIdx p : Int) else -1

/-- Worker of `filterWithIndex`: `i` is the index of the head of the remaining list. -/
def filterWithIndexFrom {α : Type} (f : α → Nat → List α → Bool) (self : List α) :
    Nat → List α → List α
  | _, [] => []
  | i, x :: xs =>
    if f x i self then x :: filterWithIndexFrom f self (i + 1) xs
    else filterWithIndexFrom f self (i + 1) xs

/-- The method `Array.prototype.filter` with the three-argument callback
`(element, index, array)`. -/
def filterWithIndex {α : Type} (f : α → Nat → List α → Bool) (self : List α) : List α :=
  filterWithIndexFrom f self 0 self

/-! ## Data model -/

/-- The `status` field of a recording: `"draft" | "submitted"`. -/
inductive Status where
  | draft
  | submitted
  deriving DecidableEq, Repr

/-- The interface `MilestoneRecording`. The blob is its byte content; the
timestamp is the time value of the `Date`, `none` for an invalid date. -/
structure MilestoneRecording where
  id : String
  milestone : Int
  blob : List Nat
  url : String
  duration : Int
  timestamp : Option Int
  status : Status
  isWordPuzzle : Option Bool
  wordPuzzleData : Option String
  deriving DecidableEq, Repr

/-- An entry of the `voice-recordings-backup` array kept in localStorage. The
fields `id` and `duration` may be missing; `timestamp` is the time value of
`new Date(rec.timestamp)`, `none` when the stored text is not a date. -/
structure BackupRecording where
  id : Option String
  milestone : Int
  duration : Option Int
  timestamp : Option Int
  status : Status
  deriving DecidableEq, Repr

/-- A submission as returned by `/api/submissions/student`. The field
`submittedAt` is the time value of `new Date(sub.submittedAt)`, `none` when the
field is missing or is not a date. -/
structure Submission where
  _id : String
  milestone : Int
  submissionType : String
  type : String
  voiceRecordingDuration : Option Int
  wordPuzzle : Option String
  submittedAt : Option Int
  status : String
  deriving DecidableEq, Repr

/-- The expression `x || 0` on an optional number: a missing value and `0` are
both falsy and give `0`. -/
def orZero : Option Int → Int
  | none => 0
  | some d => if d = 0 then 0 else d

/-- The expression `rec.id || fallback` on an optional string: a missing id and
the empty string are falsy. -/
def orString : Option String → String → String
  | none, fallback => fallback
  | some s, fallback => if s = "" then fallback else s

/-- Truthiness of the optional `wordPuzzle` field: a missing value and the empty
string are falsy. -/
def truthy : Option String → Bool
  | none => false
  | some w => w != ""

/-! ## Loading and merging recordings -/

/-- The helper `filterInvalidRecordings`: keeps the recordings whose
`duration || 0` is at least one second. -/
def filterInvalidRecordings (recordings : List BackupRecording) : List BackupRecording :=
  recordings.filter (fun rec =>
    let duration := orZero rec.duration
    let isValid := decide (duration ≥ 1)
    isValid)

/-- The filter applied to `result.data`: voice milestone submissions and word
puzzle milestone submissions. -/
def voiceSubmissions (data : List Submission) : List Submission :=
  data.filter (fun sub =>
    (sub.submissionType == "voice" && sub.type == "milestone") ||
    (truthy sub.wordPuzzle && sub.type == "milestone"))

/-- Conversion of a backend submission to the local recording format. -/
def fromSubmission (sub : Submission) : MilestoneRecording :=
  { id := sub._id
    milestone := sub.milestone
    blob := []
    url := ""
    duration := if orZero sub.voiceRecordingDuration = 0 then
        (if truthy sub.wordPuzzle then 0 else 0)
      else orZero sub.voiceRecordingDuration
    timestamp := sub.submittedAt
    status := if sub.status = "pending" then Status.draft else Status.submitted
    isWordPuzzle := some (truthy sub.wordPuzzle)
    wordPuzzleData := sub.wordPuzzle }

/-- The array `loadedRecordings`. -/
def loadedRecordings (data : List Submission) : List MilestoneRecording :=
  (voiceSubmissions data).map fromSubmission

/-- Conversion of a backup entry to the local recording format; `fresh` is the
generated id used when the entry has none. -/
def fromBackup (rec : BackupRecording) (fresh : String) : MilestoneRecording :=
  { id := orString rec.id fresh
    milestone := rec.milestone
    blob := []
    url := ""
    duration := orZero rec.duration
    timestamp := rec.timestamp
    status := Status.draft
    isWordPuzzle := none
    wordPuzzleData := none }

/-- The array `backupRecordingsFormatted`; `freshId k` is the id generated
while formatting the entry at position `k`. -/
def backupRecordingsFormatted (freshId : Nat → String)
    (validBackupRecordings : List BackupRecording) : List MilestoneRecording :=
  validBackupRecordings.enum.map (fun p => fromBackup p.2 (freshId p.1))

/-- The value `Math.abs(a.getTime() - b.getTime())`: `none`, which is `NaN`, when
one of the dates is invalid. -/
def timeDiff (a b : Option Int) : Option Int :=
  match a, b with
  | some x, some y => some |x - y|
  | _, _ => none

/-- The comparison `timeDiff < 5000`, which is false for `NaN`. -/
def lessThan5000 : Option Int → Bool
  | some d => decide (d < 5000)
  | none => false

/-- The duplicate test of the merge: same milestone and timestamps less than
five seconds apart. -/
def isNear (r recording : MilestoneRecording) : Bool :=
  r.milestone == recording.milestone &&
    lessThan5000 (timeDiff r.timestamp recording.timestamp)

/-- The array `uniqueRecordings`: an entry stays when it is the first entry of
the whole array that is near it. -/
def uniqueRecordings (allRecordings : List MilestoneRecording) : List MilestoneRecording :=
  filterWithIndex (fun recording index self =>
    let duplicateIndex := findIndex (fun r => isNear r recording) self
    decide ((index : Int) = duplicateIndex)) allRecordings

/-- The array `allRecordings` of the merge. -/
def allRecordings (freshId : Nat → String) (data : List Submission)
    (backupRecordings : List BackupRecording) : List MilestoneRecording :=
  loadedRecordings data ++ backupRecordingsFormatted freshId (filterInvalidRecordings backupRecordings)

/-- What the backend request of `loadVoiceRecordings` produced. -/
inductive BackendResponse where
  | ok (data : List Submission)
  | notOk (status : Nat)
  | threw
  deriving DecidableEq, Repr

/-- The setter applied when only the localStorage backup is available. A backup
that does not parse (`none`) and an empty valid backup leave the state alone. -/
def loadBackupOnly (freshId : Nat → String) (backup : Option (List BackupRecording))
    (current : List MilestoneRecording) : List MilestoneRecording :=
  match backup with
  | none => current
  | some backupRecordings =>
    let validBackupRecordings := filterInvalidRecordings backupRecordings
    if validBackupRecordings.length > 0 then
      backupRecordingsFormatted freshId validBackupRecordings
    else current

/-- The function `loadVoiceRecordings`, as the value of `milestoneRecordings`
after it ran. `token` is the stored auth token, `backup` the parsed
localStorage backup (`none` when parsing throws). -/
def loadVoiceRecordings (freshId : Nat → String) (token : Option String)
    (response : BackendResponse) (backup : Option (List BackupRecording))
    (current : List MilestoneRecording) : List MilestoneRecording :=
  match token with
  | none => current
  | some t =>
    if t = "" then current
    else
      match response with
      | BackendResponse.ok data =>
        match backup with
        | none => loadedRecordings data
        | some backupRecordings =>
          let validBackupRecordings := filterInvalidRecordings backupRecordings
          if validBackupRecordings.length > 0 then
            uniqueRecordings (allRecordings freshId data backupRecordings)
          else loadedRecordings data
      | BackendResponse.notOk _ => loadBackupOnly freshId backup current
      | BackendResponse.threw => loadBackupOnly freshId backup current

/-! ## Recording handlers -/

/-- The part of the component state the recording handlers read and write.
`submittingRecordings` is the `Set<string>` of ids being submitted, `backup` the
parsed `voice-recordings-backup` entry of localStorage (an absent entry reads as
the empty array, `none` is an entry that does not parse), `toasts` the titles of
the toasts shown so far. -/
structure DashboardState where
  currentMilestone : Int
  milestoneRecordings : List MilestoneRecording
  submittingRecordings : List String
  isRecording : Bool
  recordingTime : Int
  audioChunks : List (List Nat)
  backup : Option (List BackupRecording)
  toasts : List String
  deriving DecidableEq, Repr

/-- The expression `milestoneRecordings.filter(r => r.milestone === currentMilestone).length`. -/
def milestoneRecordingsCount (currentMilestone : Int)
    (milestoneRecordings : List MilestoneRecording) : Nat :=
  (milestoneRecordings.filter (fun r => r.milestone == currentMilestone)).length

/-- The function `startRecording`, up to the point where the recorder runs;
`microphone` tells whether `getUserMedia` resolved. -/
def startRecording (s : DashboardState) (microphone : Bool) : DashboardState :=
  if milestoneRecordingsCount s.currentMilestone s.milestoneRecordings ≥ 5 then
    { s with toasts := s.toasts ++ ["Recording Limit Reached"] }
  else if microphone then
    { s with audioChunks := [], isRecording := true, recordingTime := 0 }
  else
    { s with toasts := s.toasts ++ ["Recording Error"] }

/-- The comparator `(a, b) => a.timestamp - b.timestamp` does not put `b` before
`a`: the difference is not positive. A `NaN` difference counts as zero. -/
def notAfter (a b : MilestoneRecording) : Prop :=
  match a.timestamp, b.timestamp with
  | some x, some y => x ≤ y
  | _, _ => True

instance (a b : MilestoneRecording) : Decidable (notAfter a b) := by
  unfold notAfter
  split <;> infer_instance

/-- The array `milestoneRecs.sort((a, b) => a.timestamp - b.timestamp)`: a stable
sort by ascending timestamp. With an invalid date among the entries the
comparator is not consistent and engines may order differently. -/
def sortByTimestamp (milestoneRecs : List MilestoneRecording) : List MilestoneRecording :=
  milestoneRecs.insertionSort notAfter

/-- The first state update of the eviction branch of `onstop`: drops every entry
with the id of the oldest recording of the milestone. Reading `.id` of a missing
oldest recording throws, which is `none`. -/
def removeOldest (currentMilestone : Int) (prev : List MilestoneRecording) :
    Option (List MilestoneRecording) :=
  let milestoneRecs := prev.filter (fun r => r.milestone == currentMilestone)
  match (sortByTimestamp milestoneRecs).head? with
  | none => none
  | some oldestRecording => some (prev.filter (fun r => r.id != oldestRecording.id))

/-- The state update of the other branch of `onstop`: appends the recording
unless one with its id is already present. -/
def addIfNew (newRecording : MilestoneRecording) (prev : List MilestoneRecording) :
    List MilestoneRecording :=
  match prev.find? (fun r => r.id == newRecording.id) with
  | some _ => prev
  | none => prev ++ [newRecording]

/-- The entry pushed to the localStorage backup for a new recording. -/
def toBackup (newRecording : MilestoneRecording) : BackupRecording :=
  { id := some newRecording.id
    milestone := newRecording.milestone
    duration := some newRecording.duration
    timestamp := newRecording.timestamp
    status := newRecording.status }

/-- The object `newRecording` built by `onstop`. `newId` and `now` are the
generated id and the current time, `audioBlob` the recorded bytes. -/
def newRecording (s : DashboardState) (newId : String) (now : Int) (audioBlob : List Nat) :
    MilestoneRecording :=
  { id := newId
    milestone := s.currentMilestone
    blob := audioBlob
    url := "blob:" ++ newId
    duration := s.recordingTime
    timestamp := some now
    status := Status.draft
    isWordPuzzle := none
    wordPuzzleData := none }

/-- The handler `mediaRecorder.onstop`. It is created by `startRecording`, so
`recordingTime`, `currentMilestone` and `milestoneRecordings` are read from
`captured`, the state of the render in which `startRecording` ran. The state
updates receive the recordings of `s`, the state when the recorder stops, and the
localStorage backup is read then; the updates run in program order. The result
is `none` when a state update throws. -/
def onstop (captured s : DashboardState) (newId : String) (now : Int)
    (audioBlob : List Nat) : Option DashboardState :=
  if captured.recordingTime < 1 then
    some { s with toasts := s.toasts ++ ["Recording Too Short"], recordingTime := 0 }
  else
    let updated : Option (List MilestoneRecording) :=
      if milestoneRecordingsCount captured.currentMilestone captured.milestoneRecordings ≥ 5
      then
        (removeOldest captured.currentMilestone s.milestoneRecordings).map
          (fun prev => prev ++ [newRecording captured newId now audioBlob])
      else
        some (addIfNew (newRecording captured newId now audioBlob) s.milestoneRecordings)
    updated.map (fun recordings =>
      { s with
        milestoneRecordings := recordings
        recordingTime := 0
        backup := s.backup.map (fun backupRecordings =>
          backupRecordings ++ [toBackup (newRecording captured newId now audioBlob)])
        toasts := s.toasts ++ ["Recording Saved"] })

/-! ## Submission -/

/-- The base64 alphabet. -/
def base64Alphabet : List Char :=
  "ABCDEFGHIJKLMNOPQRSTUVWXYZabcdefghijklmnopqrstuvwxyz0123456789+/".toList

/-- The base64 digit of a six-bit value. -/
def base64Digit (n : Nat) : Char :=
  base64Alphabet.getD (n % 64) 'A'

/-- The function `btoa` on a string of characters with codes below 256, given by
its character codes: standard base64 with `=` padding. -/
def btoa : List Nat → List Char
  | a :: b :: c :: rest =>
    base64Digit (a / 4) :: base64Digit ((a % 4) * 16 + b / 16) ::
      base64Digit ((b % 16) * 4 + c / 64) :: base64Digit (c % 64) :: btoa rest
  | [a, b] =>
    [base64Digit (a / 4), base64Digit ((a % 4) * 16 + b / 16), base64Digit ((b % 16) * 4), '=']
  | [a] => [base64Digit (a / 4), base64Digit ((a % 4) * 16), '=', '=']
  | [] => []

/-- The view `new Uint8Array(arrayBuffer)` of a blob: its bytes. -/
def uint8Array (blob : List Nat) : List Nat :=
  blob.map (fun b => b % 256)

/-- The call `String.fromCharCode(...bytes)`: the string with these character
codes. The spread passes one argument per byte, and a call with more than
`maxArguments` arguments, the limit of the engine, throws a `RangeError`, which is
`none`. -/
def fromCharCode (maxArguments : Nat) (bytes : List Nat) : Option (List Nat) :=
  if bytes.length ≤ maxArguments then some bytes else none

/-- The expression `btoa(String.fromCharCode(...new Uint8Array(arrayBuffer)))`;
`none` when it throws. -/
def base64OfBlob (maxArguments : Nat) (blob : List Nat) : Option (List Char) :=
  (fromCharCode maxArguments (uint8Array blob)).map btoa

/-- The object `submissionData` posted to `/api/submissions/milestone-voice`. -/
structure SubmissionData where
  milestone : Int
  audioBlob : String
  duration : Int
  fileName : String
  deriving DecidableEq, Repr

/-- What the POST of `submitRecording` produced. -/
inductive SubmitResponse where
  | ok
  | notOk (status : Nat)
  | threw
  deriving DecidableEq, Repr

/-- The update `new Set(prev).add(id)`. -/
def setAdd (prev : List String) (id : String) : List String :=
  if id ∈ prev then prev else prev ++ [id]

/-- The update `newSet.delete(id)`. -/
def setDelete (prev : List String) (id : String) : List String :=
  prev.filter (fun x => x != id)

/-- The function `submitRecording`: the state after it ran and the requests it
sent to the backend. `now` is the clock value used in the file name,
`maxArguments` the argument limit of the engine. When the base64 conversion
throws, the `catch` block shows the error toast and nothing is sent. -/
def submitRecording (s : DashboardState) (recording : MilestoneRecording) (now : Int)
    (maxArguments : Nat) (response : SubmitResponse) : DashboardState × List SubmissionData :=
  if recording.id ∈ s.submittingRecordings then (s, [])
  else if recording.status = Status.submitted then (s, [])
  else
    let marked := setAdd s.submittingRecordings recording.id
    match base64OfBlob maxArguments recording.blob with
    | none =>
      ({ s with
          toasts := s.toasts ++ ["Submission Error"]
          submittingRecordings := setDelete marked recording.id },
        [])
    | some base64Audio =>
      let submissionData : SubmissionData :=
        { milestone := recording.milestone
          audioBlob := String.mk base64Audio
          duration := recording.duration
          fileName := "milestone-" ++ toString recording.milestone ++ "-recording-" ++
            toString now ++ ".wav" }
      match response with
      | SubmitResponse.ok =>
        ({ s with
            milestoneRecordings := s.milestoneRecordings.map (fun rec =>
              if rec.id = recording.id then { rec with status := Status.submitted } else rec)
            toasts := s.toasts ++ ["Recording Submitted"]
            backup := s.backup.map (fun backupRecordings =>
              backupRecordings.filter (fun rec => rec.id != some recording.id))
            submittingRecordings := setDelete marked recording.id },
          [submissionData])
      | SubmitResponse.notOk _ =>
        ({ s with
            toasts := s.toasts ++ ["Submission Failed"]
            submittingRecordings := setDelete marked recording.id },
          [submissionData])
      | SubmitResponse.threw =>
        ({ s with
            toasts := s.toasts ++ ["Submission Error"]
            submittingRecordings := setDelete marked recording.id },
          [submissionData])

/-! ## Practice section -/

/-- The two kinds of practice card. -/
inductive PracticeKind where
  | voiceRecording
  | wordPuzzle
  deriving DecidableEq, Repr

/-- The practice card rendered in the curriculum tab for the selected
milestone: the "Practice Recording" card with the recording controls, rendered
without any condition on the milestone. -/
def practiceSection (_currentMilestone : Int) : PracticeKind :=
  PracticeKind.voiceRecording

/-- The expectation printed by `testMilestoneSelection` of
`test-word-puzzle-display.js`. -/
def testMilestoneSelection (milestone : Int) : PracticeKind :=
  if milestone ≥ 9 ∧ milestone ≤ 19 then PracticeKind.wordPuzzle
  else PracticeKind.voiceRecording

end LearnerDashboard

namespace VideoUtils

/-! ## String helpers -/

/-- The method `String.prototype.startsWith`. -/
def startsWith (s pre : List Char) : Bool :=
  pre.isPrefixOf s

/-- The method `String.prototype.includes`. -/
def includes : List Char → List Char → Bool
  | [], sub => sub.isEmpty
  | c :: cs, sub => sub.isPrefixOf (c :: cs) || includes cs sub

/-! ## URL helpers -/

/-- The constant `RAILWAY_BASE_URL`. -/
def RAILWAY_BASE_URL : List Char :=
  "https://backend-production-7e4df.up.railway.app".toList

/-- The function `getVideoUrl`. -/
def getVideoUrl (videoPath : List Char) : List Char :=
  if startsWith videoPath "http".toList then videoPath
  else if startsWith videoPath "/".toList then RAILWAY_BASE_URL ++ videoPath
  else RAILWAY_BASE_URL ++ "/".toList ++ videoPath

/-- The function `getThumbnailUrl`. -/
def getThumbnailUrl (thumbnailPath : List Char) : List Char :=
  getVideoUrl thumbnailPath

/-- The function `getAudioUrl`. -/
def getAudioUrl (audioPath : List Char) : List Char :=
  getVideoUrl audioPath

/-- The function `isYouTubeUrl`. -/
def isYouTubeUrl (url : List Char) : Bool :=
  includes url "youtube.com".toList || includes url "youtu.be".toList

/-! ## A backtracking matcher for the regular expression of `extractYouTubeVideoId` -/

/-- An item of a character class. -/
inductive ClassAtom where
  | char (c : Char)
  | space
  deriving DecidableEq, Repr

/-- The class escape `\s`: white space and line terminators. -/
def isSpace (c : Char) : Bool :=
  let n := c.toNat
  n == 9 || n == 10 || n == 11 || n == 12 || n == 13 || n == 32 || n == 0xA0 ||
    n == 0x1680 || (0x2000 ≤ n && n ≤ 0x200A) || n == 0x2028 || n == 0x2029 ||
    n == 0x202F || n == 0x205F || n == 0x3000 || n == 0xFEFF

/-- Line terminators, which `.` does not match. -/
def isLineTerminator (c : Char) : Bool :=
  let n := c.toNat
  n == 10 || n == 13 || n == 0x2028 || n == 0x2029

/-- Whether a class item contains a character. -/
def ClassAtom.test : ClassAtom → Char → Bool
  | ClassAtom.char d, c => c == d
  | ClassAtom.space, c => isSpace c

/-- A pattern that consumes exactly one character. -/
inductive CharPattern where
  | char (c : Char)
  | dot
  | cls (negated : Bool) (atoms : List ClassAtom)
  deriving DecidableEq, Repr

/-- Whether a one-character pattern accepts a character. -/
def CharPattern.test : CharPattern → Char → Bool
  | CharPattern.char d, c => c == d
  | CharPattern.dot, c => !isLineTerminator c
  | CharPattern.cls negated atoms, c => (atoms.any (fun a => a.test c)) != negated

/-- The regular expressions built from the constructs the source pattern uses.
Quantifiers are greedy and apply to one-character patterns; `group` is the
capturing group. -/
inductive Re where
  | empty
  | one (p : CharPattern)
  | seq (a b : Re)
  | alt (a b : Re)
  | opt (a : Re)
  | star (p : CharPattern)
  | plus (p : CharPattern)
  | count (p : CharPattern) (n : Nat)
  | group (a : Re)
  deriving Repr

/-- A literal string as a pattern. -/
def Re.lit : List Char → Re
  | [] => Re.empty
  | c :: cs => Re.seq (Re.one (CharPattern.char c)) (Re.lit cs)

/-- Greedy `p*`: consumes as many characters as `p` accepts, then gives them
back one at a time until the continuation succeeds. -/
def starRun {R : Type} (p : CharPattern) : List Char → (List Char → Option R) → Option R
  | [], k => k []
  | c :: cs, k =>
    if p.test c then
      match starRun p cs k with
      | some r => some r
      | none => k (c :: cs)
    else k (c :: cs)

/-- The counted repetition `p{n}`. -/
def countRun {R : Type} (p : CharPattern) : Nat → List Char → (List Char → Option R) → Option R
  | 0, s, k => k s
  | _ + 1, [], _ => none
  | n + 1, c :: cs, k => if p.test c then countRun p n cs k else none

/-- Backtracking match of a pattern at the start of `s`. `cap` is the text of
capture group 1 so far, `k` the continuation run on the rest of the input;
alternatives are tried in order and the first success is the result. -/
def Re.run {R : Type} : Re → List Char → Option (List Char) →
    (List Char → Option (List Char) → Option R) → Option R
  | Re.empty, s, cap, k => k s cap
  | Re.one p, s, cap, k =>
    match s with
    | [] => none
    | c :: cs => if p.test c then k cs cap else none
  | Re.seq a b, s, cap, k => a.run s cap (fun s1 cap1 => b.run s1 cap1 k)
  | Re.alt a b, s, cap, k =>
    match a.run s cap k with
    | some r => some r
    | none => b.run s cap k
  | Re.opt a, s, cap, k =>
    match a.run s cap k with
    | some r => some r
    | none => k s cap
  | Re.star p, s, cap, k => starRun p s (fun s1 => k s1 cap)
  | Re.plus p, s, cap, k =>
    match s with
    | [] => none
    | c :: cs => if p.test c then starRun p cs (fun s1 => k s1 cap) else none
  | Re.count p n, s, cap, k => countRun p n s (fun s1 => k s1 cap)
  | Re.group a, s, cap, k =>
    a.run s cap (fun s1 _ => k s1 (some (s.take (s.length - s1.length))))

/-- The result of `String.prototype.match` for a pattern without the global flag:
the leftmost match, reported as the text of capture group 1 (`none` inside when
the group did not take part). The outer `none` is `null`. -/
def regexMatch (re : Re) : List Char → Option (Option (List Char))
  | [] => re.run [] none (fun _ cap => some cap)
  | c :: cs =>
    match re.run (c :: cs) none (fun _ cap => some cap) with
    | some m => some m
    | none => regexMatch re cs

/-- The alternative `[^\/]+\/.+\/` of the pattern. -/
def pathAlternative : Re :=
  Re.seq (Re.plus (CharPattern.cls true [ClassAtom.char '/']))
    (Re.seq (Re.one (CharPattern.char '/'))
      (Re.seq (Re.plus CharPattern.dot) (Re.one (CharPattern.char '/'))))

/-- The alternative `(?:v|e(?:mbed)?)\/` of the pattern. -/
def embedAlternative : Re :=
  Re.seq
    (Re.alt (Re.one (CharPattern.char 'v'))
      (Re.seq (Re.one (CharPattern.char 'e')) (Re.opt (Re.lit "mbed".toList))))
    (Re.one (CharPattern.char '/'))

/-- The alternative `.*[?&]v=` of the pattern. -/
def queryAlternative : Re :=
  Re.seq (Re.star CharPattern.dot)
    (Re.seq (Re.one (CharPattern.cls false [ClassAtom.char '?', ClassAtom.char '&']))
      (Re.lit "v=".toList))

/-- The class `[^"&?\/\s]` of the pattern. -/
def idClass : CharPattern :=
  CharPattern.cls true
    [ClassAtom.char '"', ClassAtom.char '&', ClassAtom.char '?', ClassAtom.char '/',
      ClassAtom.space]

/-- The capturing group `([^"&?\/\s]{11})` of the pattern. -/
def idGroup : Re :=
  Re.group (Re.count idClass 11)

/-- The pattern
`(?:youtube\.com\/(?:[^\/]+\/.+\/|(?:v|e(?:mbed)?)\/|.*[?&]v=)|youtu\.be\/)([^"&?\/\s]{11})`. -/
def youtubeRegex : Re :=
  Re.seq
    (Re.alt
      (Re.seq (Re.lit "youtube.com/".toList)
        (Re.alt pathAlternative (Re.alt embedAlternative queryAlternative)))
      (Re.lit "youtu.be/".toList))
    idGroup

/-- The function `extractYouTubeVideoId`; `none` is `null`. -/
def extractYouTubeVideoId (url : List Char) : Option (List Char) :=
  if !isYouTubeUrl url then none
  else
    match regexMatch youtubeRegex url with
    | some m => m
    | none => none

/-- The characters `[A-Za-z0-9_-]` of a video id. -/
def isVideoIdChar (c : Char) : Bool :=
  let n := c.toNat
  (65 ≤ n && n ≤ 90) || (97 ≤ n && n ≤ 122) || (48 ≤ n && n ≤ 57) || n == 95 || n == 45

end VideoUtils

namespace LearnerDashboard

/-! ## Playback of a submitted recording -/

/-- The value of a base64 digit: its position in the alphabet; `none` for any
other character, the padding `=` included. -/
def base64Value (c : Char) : Option Nat :=
  let i := base64Alphabet.indexOf c
  if i < 64 then some i else none

/-- The base64 decoding the browser applies to the payload of a
`data:...;base64,` URL: groups of four digits give three bytes, and a last group
padded with one or two `=` gives two bytes or one. `none` is a payload that does
not decode. -/
def base64Decode : List Char → Option (List Nat)
  | [] => some []
  | c1 :: c2 :: c3 :: c4 :: rest =>
    match base64Value c1, base64Value c2 with
    | some v1, some v2 =>
      if c3 = '=' ∧ c4 = '=' ∧ rest = [] then some [v1 * 4 + v2 / 16]
      else
        match base64Value c3 with
        | some v3 =>
          if c4 = '=' ∧ rest = [] then some [v1 * 4 + v2 / 16, (v2 % 16) * 16 + v3 / 4]
          else
            match base64Value c4 with
            | some v4 =>
              (base64Decode rest).map (fun bytes =>
                (v1 * 4 + v2 / 16) :: ((v2 % 16) * 16 + v3 / 4) :: ((v3 % 4) * 64 + v4) :: bytes)
            | none => none
        | none => none
    | _, _ => none
  | _ => none

/-- The function `testBlobConversion` of `debug-audio-submission.js`, for the
bytes of its test blob: the string `base64Data`, or `null`, which is `none`, when
the conversion throws. -/
def testBlobConversion (maxArguments : Nat) (testData : List Nat) : Option (List Char) :=
  base64OfBlob maxArguments testData

/-- The source of the audio element the evaluation interfaces create from
`submission.voiceRecording.audioBlob`. -/
def audioDataUrl (audioBlob : List Char) : List Char :=
  "data:audio/wav;base64,".toList ++ audioBlob

/-- The bytes the browser plays for such a source: the base64 decoding of what
follows the header. -/
def audioDataUrlBytes (src : List Char) : Option (List Nat) :=
  if "data:audio/wav;base64,".toList.isPrefixOf src then
    base64Decode (src.drop "data:audio/wav;base64,".toList.length)
  else none

end LearnerDashboard

namespace SimpleVoiceEvaluationInterface

/-! ## Submitting an evaluation -/

/-- The state of the component: the score, the feedback text and the tags. The
score is set by `parseInt(value) || 0`, so it is an integer. -/
structure State where
  score : Int
  feedback : String
  tags : List String
  deriving DecidableEq, Repr

/-- The object `evaluation` passed to `onEvaluate`. -/
structure Evaluation where
  score : Int
  feedback : String
  tags : List String
  deriving DecidableEq, Repr

/-- What a run of `handleSubmitEvaluation` did: the alerts shown and the
arguments of its calls of `onEvaluate`. -/
structure Effects where
  alerts : List String
  onEvaluate : List Evaluation
  deriving DecidableEq, Repr

/-- The handler `handleSubmitEvaluation`. -/
def handleSubmitEvaluation (s : State) : Effects :=
  if s.score < 0 || s.score > 100 then
    { alerts := ["Score must be between 0 and 100"], onEvaluate := [] }
  else
    let evaluation : Evaluation := { score := s.score, feedback := s.feedback, tags := s.tags }
    { alerts := [], onEvaluate := [evaluation] }

/-- The handler `handleAddTag`. -/
def handleAddTag (s : State) (tag : String) : State :=
  if !s.tags.contains tag then { s with tags := s.tags ++ [tag] } else s

/-- The handler `handleRemoveTag`. -/
def handleRemoveTag (s : State) (tagToRemove : String) : State :=
  { s with tags := s.tags.filter (fun tag => tag != tagToRemove) }

/-- A state of the examples. -/
def exampleState : State :=
  { score := 85, feedback := "Clear vowels", tags := ["clarity", "tone"] }

end SimpleVoiceEvaluationInterface

namespace DebugWordPuzzles

/-! ## The default word puzzle of `debug-word-puzzles.js` -/

/-- The array `defaultTeluguLetters`. -/
def defaultTeluguLetters : List String :=
  ["అ", "ఆ", "ఇ", "ఈ", "ఉ", "ఊ", "ఋ", "ౠ", "ఎ", "ఏ",
   "ఐ", "ఒ", "ఓ", "ఔ", "అం", "అః", "క", "ఖ", "గ", "ఘ",
   "ఙ", "చ", "ఛ", "జ", "ఝ", "ఞ", "ట", "ఠ", "డ", "ఢ",
   "ణ", "త", "థ", "ద", "ధ", "న", "ప", "ఫ", "బ", "భ",
   "మ", "య", "ర", "ల", "వ", "శ", "ష", "స", "హ", "ళ"]

/-- An entry of `greenBoxes`. -/
structure GreenBox where
  id : String
  row : Nat
  col : Nat
  explanation : String
  deriving DecidableEq, Repr

/-- A cell of the grid. -/
structure Cell where
  letter : String
  isGreenBox : Bool
  explanation : String
  deriving DecidableEq, Repr

/-- The object `defaultConfig`, with its grid. -/
structure PuzzleConfig where
  id : String
  milestone : Int
  title : String
  greenBoxes : List GreenBox
  updatedAt : String
  grid : List (List Cell)
  deriving DecidableEq, Repr

/-- The green boxes of the default configuration. -/
def defaultGreenBoxes : List GreenBox :=
  [ { id := "green-1", row := 1, col := 2,
      explanation := "అ - First vowel in Telugu alphabet" },
    { id := "green-2", row := 2, col := 4,
      explanation := "క - First consonant in Telugu alphabet" },
    { id := "green-3", row := 3, col := 1,
      explanation := "మ - Important consonant sound" },
    { id := "green-4", row := 4, col := 3,
      explanation := "ర - Rolling R sound" } ]

/-- The cell built by the body of the inner loop. An index outside the array
reads as `undefined`, which cannot occur because of the modulus. -/
def makeCell (greenBoxes : List GreenBox) (row col letterIndex : Nat) : Cell :=
  let isGreenBox := greenBoxes.any (fun gb => gb.row == row && gb.col == col)
  let greenBox := greenBoxes.find? (fun gb => gb.row == row && gb.col == col)
  { letter := defaultTeluguLetters.getD (letterIndex % defaultTeluguLetters.length) "undefined"
    isGreenBox := isGreenBox
    explanation := match greenBox with
      | some gb => gb.explanation
      | none => "" }

/-- The inner loop `for (let col = 0; col < 6; col++)`: the cells of one row and
the value of `letterIndex` after it. -/
def buildRow (greenBoxes : List GreenBox) (row letterIndex : Nat) : List Cell × Nat :=
  (List.range 6).foldl
    (fun acc col => (acc.1 ++ [makeCell greenBoxes row col acc.2], acc.2 + 1))
    ([], letterIndex)

/-- The outer loop `for (let row = 0; row < 6; row++)`, started with
`letterIndex = 0`. -/
def buildGrid (greenBoxes : List GreenBox) : List (List Cell) :=
  ((List.range 6).foldl
    (fun acc row =>
      let built := buildRow greenBoxes row acc.2
      (acc.1 ++ [built.1], built.2))
    (([] : List (List Cell)), 0)).1

/-- The method `localStorage.setItem`, on a store holding the configurations
that `JSON.stringify` serialises. -/
def setItem (storage : List (String × PuzzleConfig)) (key : String) (value : PuzzleConfig) :
    List (String × PuzzleConfig) :=
  (key, value) :: storage.filter (fun entry => entry.1 != key)

/-- The method `localStorage.getItem`. -/
def getItem (storage : List (String × PuzzleConfig)) (key : String) : Option PuzzleConfig :=
  (storage.find? (fun entry => entry.1 == key)).map (fun entry => entry.2)

/-- The function `createDefaultWordPuzzle`: the configuration it returns and
localStorage after it. `now` is `new Date().toISOString()`. -/
def createDefaultWordPuzzle (milestone : Int) (now : String)
    (storage : List (String × PuzzleConfig)) : PuzzleConfig × List (String × PuzzleConfig) :=
  let defaultConfig : PuzzleConfig :=
    { id := "puzzle-" ++ toString milestone
      milestone := milestone
      title := "Milestone " ++ toString milestone ++ " Word Puzzle"
      greenBoxes := defaultGreenBoxes
      updatedAt := now
      grid := buildGrid defaultGreenBoxes }
  (defaultConfig, setItem storage ("puzzle-" ++ toString milestone) defaultConfig)

/-- The cell of a grid at a row and a column, when there is one. -/
def cellAt (grid : List (List Cell)) (row col : Nat) : Option Cell :=
  (grid.get? row).bind (fun cells => cells.get? col)

end DebugWordPuzzles

namespace LearnerDashboard

/-! ## Example data -/

/-- The backend data of the example: two voice submissions of milestone 1, four
seconds apart, and one of milestone 2. -/
def exampleData : List Submission :=
  [ { _id := "s0", milestone := 1, submissionType := "voice", type := "milestone",
      voiceRecordingDuration := some 3, wordPuzzle := none, submittedAt := some 0,
      status := "evaluated" },
    { _id := "s1", milestone := 1, submissionType := "voice", type := "milestone",
      voiceRecordingDuration := some 3, wordPuzzle := none, submittedAt := some 4000,
      status := "evaluated" },
    { _id := "s2", milestone := 2, submissionType := "voice", type := "milestone",
      voiceRecordingDuration := some 3, wordPuzzle := none, submittedAt := some 0,
      status := "pending" } ]

/-- The backup entry of the example: a draft of milestone 1, recorded eight
seconds after the first submission. -/
def exampleBackupRecording : BackupRecording :=
  { id := some "b0", milestone := 1, duration := some 2, timestamp := some 8000,
    status := Status.draft }

/-- The localStorage backup of the example. -/
def exampleBackup : List BackupRecording :=
  [exampleBackupRecording]

/-- The merged input list of the example. -/
def exampleAll : List MilestoneRecording :=
  allRecordings (fun _ => "fresh") exampleData exampleBackup

/-- The recordings `loadVoiceRecordings` sets in the example. -/
def exampleMerged : List MilestoneRecording :=
  loadVoiceRecordings (fun _ => "fresh") (some "token") (BackendResponse.ok exampleData)
    (some exampleBackup) []

/-- A recording of milestone 1 for the examples. -/
def exampleRecording (id : String) (timestamp : Int) : MilestoneRecording :=
  { id := id, milestone := 1, blob := [82, 73, 70, 70], url := "blob:" ++ id, duration := 3,
    timestamp := some timestamp, status := Status.draft, isWordPuzzle := none,
    wordPuzzleData := none }

/-- A state of the examples: milestone 1 holds five recordings, the recording
`c` is being submitted, and the recording timer shows two seconds. -/
def exampleFullState : DashboardState :=
  { currentMilestone := 1
    milestoneRecordings :=
      [exampleRecording "a" 50, exampleRecording "b" 10, exampleRecording "c" 30,
        exampleRecording "d" 20, exampleRecording "e" 40]
    submittingRecordings := ["c"]
    isRecording := false
    recordingTime := 2
    audioChunks := []
    backup := some []
    toasts := [] }

/-- The state of the examples with the recording timer at zero. -/
def exampleShortState : DashboardState :=
  { exampleFullState with recordingTime := 0 }

/-- The state of the examples before the recording `e` was loaded: milestone 1
holds four recordings. -/
def exampleCapturedState : DashboardState :=
  { exampleFullState with
    milestoneRecordings :=
      [exampleRecording "a" 50, exampleRecording "b" 10, exampleRecording "c" 30,
        exampleRecording "d" 20] }

/-- A draft recording of 130000 bytes. -/
def exampleLargeRecording : MilestoneRecording :=
  { exampleRecording "g" 70 with blob := List.replicate 130000 0 }

end LearnerDashboard

/-! # Properties -/

namespace LearnerDashboard

/-! ## Array helpers -/

theorem findIndex_eq_natCast {α : Type} {p : α → Bool} {l : List α} {i : Nat}
    (h : findIndex p l = (i : Int)) : l.findIdx p = i ∧ i < l.length := by
  unfold findIndex at h
  split at h
  · rename_i hlt
    have : l.findIdx p = i := by exact_mod_cast h
    exact ⟨this, this ▸ hlt⟩
  · omega

theorem findIndex_of_exists {α : Type} {p : α → Bool} {l : List α} {i : Nat} (hi : i < l.length)
    (hp : p l[i] = true) : ∃ k : Nat, findIndex p l = (k : Int) ∧ k ≤ i := by
  have hlt : l.findIdx p < l.length :=
    List.findIdx_lt_length.mpr ⟨l[i], List.getElem_mem hi, hp⟩
  refine ⟨l.findIdx p, by simp [findIndex, hlt], ?_⟩
  by_contra hcon
  have := @List.not_of_lt_findIdx _ p l i (by omega)
  simp [hp] at this

theorem getElem_append_cons_length {α : Type} (pre xs : List α) (x : α)
    (h : pre.length < (pre ++ x :: xs).length) : (pre ++ x :: xs)[pre.length] = x := by
  rw [List.getElem_append_right (le_refl _)]
  simp

theorem mem_filterWithIndexFrom {α : Type} (f : α → Nat → List α → Bool) (self : List α) :
    ∀ (xs pre : List α) (y : α), self = pre ++ xs →
      y ∈ filterWithIndexFrom f self pre.length xs →
      ∃ j, pre.length ≤ j ∧ ∃ h : j < self.length, self[j] = y ∧ f y j self = true := by
  intro xs
  induction xs with
  | nil => intro pre y _ hy; simp [filterWithIndexFrom] at hy
  | cons x xs ih =>
    intro pre y hself hy
    have hself2 : self = (pre ++ [x]) ++ xs := by simp [hself]
    have hlen : (pre ++ [x]).length = pre.length + 1 := by simp
    have hx : ∃ h : pre.length < self.length, self[pre.length] = x := by
      subst hself
      exact ⟨by simp, getElem_append_cons_length pre xs x (by simp)⟩
    unfold filterWithIndexFrom at hy
    split at hy
    · rename_i hf
      rcases List.mem_cons.mp hy with hyx | hy
      · obtain ⟨h, hxe⟩ := hx
        exact ⟨pre.length, le_refl _, h, by rw [hxe, hyx], by rw [hyx]; exact hf⟩
      · rw [← hlen] at hy
        obtain ⟨j, hj, h, hje, hjf⟩ := ih (pre ++ [x]) y hself2 hy
        exact ⟨j, by omega, h, hje, hjf⟩
    · rw [← hlen] at hy
      obtain ⟨j, hj, h, hje, hjf⟩ := ih (pre ++ [x]) y hself2 hy
      exact ⟨j, by omega, h, hje, hjf⟩

theorem pairwise_filterWithIndexFrom {α : Type} (f : α → Nat → List α → Bool) (self : List α)
    (R : α → α → Prop)
    (hR : ∀ (i j : Nat) (hi : i < self.length) (hj : j < self.length), i < j →
      f self[i] i self = true → f self[j] j self = true → R self[i] self[j]) :
    ∀ (xs pre : List α), self = pre ++ xs →
      (filterWithIndexFrom f self pre.length xs).Pairwise R := by
  intro xs
  induction xs with
  | nil => intro pre _; simp [filterWithIndexFrom]
  | cons x xs ih =>
    intro pre hself
    have hself2 : self = (pre ++ [x]) ++ xs := by simp [hself]
    have hlen : (pre ++ [x]).length = pre.length + 1 := by simp
    have hrest := ih (pre ++ [x]) hself2
    rw [hlen] at hrest
    unfold filterWithIndexFrom
    split
    · rename_i hf
      refine List.Pairwise.cons ?_ hrest
      intro y hy
      rw [← hlen] at hy
      obtain ⟨j, hj, h, hje, hjf⟩ := mem_filterWithIndexFrom f self xs (pre ++ [x]) y hself2 hy
      have hi : pre.length < self.length := by omega
      have hxe : self[pre.length] = x := by
        subst hself; exact getElem_append_cons_length pre xs x hi
      have := hR pre.length j hi h (by omega) (by rw [hxe]; exact hf) (by rw [hje]; exact hjf)
      rw [hxe, hje] at this
      exact this
    · exact hrest

theorem pairwise_filterWithIndex {α : Type} (f : α → Nat → List α → Bool) (self : List α)
    (R : α → α → Prop)
    (hR : ∀ (i j : Nat) (hi : i < self.length) (hj : j < self.length), i < j →
      f self[i] i self = true → f self[j] j self = true → R self[i] self[j]) :
    (filterWithIndex f self).Pairwise R :=
  pairwise_filterWithIndexFrom f self R hR self [] rfl

/-! ## Merging -/

theorem isNear_iff (r recording : MilestoneRecording) :
    isNear r recording = true ↔
      r.milestone = recording.milestone ∧
        ∃ x y : Int, r.timestamp = some x ∧ recording.timestamp = some y ∧ |x - y| < 5000 := by
  unfold isNear
  cases hr : r.timestamp with
  | none => simp [timeDiff, lessThan5000]
  | some x =>
    cases hrec : recording.timestamp with
    | none => simp [timeDiff, lessThan5000]
    | some y => simp [timeDiff, lessThan5000]

theorem isNear_symm (a b : MilestoneRecording) : isNear a b = isNear b a := by
  have h : ∀ x y : MilestoneRecording, isNear x y = true → isNear y x = true := by
    intro x y hxy
    rw [isNear_iff] at hxy ⊢
    obtain ⟨hm, tx, ty, hx, hy, hlt⟩ := hxy
    exact ⟨hm.symm, ty, tx, hy, hx, by rw [abs_sub_comm]; exact hlt⟩
  cases hab : isNear a b with
  | true => exact (h a b hab).symm
  | false =>
    cases hba : isNear b a with
    | true => rw [h b a hba] at hab; exact absurd hab (by simp)
    | false => rfl

theorem uniqueRecordings_pairwise (all : List MilestoneRecording) :
    (uniqueRecordings all).Pairwise (fun a b => isNear a b = false) := by
  unfold uniqueRecordings
  apply pairwise_filterWithIndex
  intro i j hi hj hij _ hfj
  have hfj2 : (j : Int) = findIndex (fun r => isNear r all[j]) all := by simpa using hfj
  obtain ⟨hidx, _⟩ := findIndex_eq_natCast hfj2.symm
  have := @List.not_of_lt_findIdx _ (fun r => isNear r all[j]) all i
    (by omega)
  simpa using this

theorem loadVoiceRecordings_merge_eq (freshId : Nat → String) (token : String)
    (data : List Submission) (backupRecordings : List BackupRecording)
    (current : List MilestoneRecording) (htoken : token ≠ "")
    (hvalid : filterInvalidRecordings backupRecordings ≠ []) :
    loadVoiceRecordings freshId (some token) (BackendResponse.ok data) (some backupRecordings)
        current =
      uniqueRecordings (allRecordings freshId data backupRecordings) := by
  have hpos : (filterInvalidRecordings backupRecordings).length > 0 :=
    List.length_pos.mpr hvalid
  simp [loadVoiceRecordings, htoken, hpos]

theorem mem_filterWithIndexFrom_of_true {α : Type} (f : α → Nat → List α → Bool)
    (self : List α) :
    ∀ (xs pre : List α), self = pre ++ xs → ∀ (j : Nat) (hj : j < self.length),
      pre.length ≤ j → f self[j] j self = true →
      self[j] ∈ filterWithIndexFrom f self pre.length xs := by
  intro xs
  induction xs with
  | nil =>
    intro pre hself j hj hle _
    subst hself
    simp at hj
    omega
  | cons x xs ih =>
    intro pre hself j hj hle hf
    have hself2 : self = (pre ++ [x]) ++ xs := by simp [hself]
    have hlen : (pre ++ [x]).length = pre.length + 1 := by simp
    have hi : pre.length < self.length := by subst hself; simp
    have hxe : self[pre.length] = x := by
      subst hself; exact getElem_append_cons_length pre xs x hi
    unfold filterWithIndexFrom
    by_cases hjp : j = pre.length
    · subst hjp
      rw [hxe] at hf ⊢
      simp [hf]
    · have hrec := ih (pre ++ [x]) hself2 j hj (by omega) hf
      rw [hlen] at hrec
      split
      · exact List.mem_cons_of_mem _ hrec
      · exact hrec

theorem isNear_self (r : MilestoneRecording) (t : Int) (ht : r.timestamp = some t) :
    isNear r r = true := by
  rw [isNear_iff]
  exact ⟨rfl, t, t, ht, ht, by simp⟩

theorem uniqueRecordings_dropped (all : List MilestoneRecording) (j : Nat) (hj : j < all.length)
    (t : Int) (ht : all[j].timestamp = some t) (hdrop : all[j] ∉ uniqueRecordings all) :
    ∃ (k : Nat) (hk : k < all.length), k < j ∧ isNear all[k] all[j] = true := by
  obtain ⟨k, hk, hkj⟩ :=
    @findIndex_of_exists _ (fun r => isNear r all[j]) all j hj (isNear_self all[j] t ht)
  obtain ⟨hidx, hklen⟩ := findIndex_eq_natCast hk
  have hne : k ≠ j := by
    intro hkeq
    apply hdrop
    unfold uniqueRecordings filterWithIndex
    have := mem_filterWithIndexFrom_of_true
      (fun recording index self =>
        decide ((index : Int) = findIndex (fun r => isNear r recording) self))
      all all [] rfl j hj (Nat.zero_le _) (by simp [hk, hkeq])
    simpa using this
  refine ⟨k, hklen, by omega, ?_⟩
  have := @List.findIdx_getElem _ (fun r => isNear r all[j]) all (hidx ▸ hklen)
  simpa [hidx] using this

/-- C1: when `loadVoiceRecordings` merges the backend recordings with a non-empty
list of valid backup recordings, no two distinct entries of the result have the
same milestone and timestamps less than 5000 ms apart. -/
theorem loadVoiceRecordings_merge_no_near_pair (freshId : Nat → String) (token : String)
    (data : List Submission) (backupRecordings : List BackupRecording)
    (current result : List MilestoneRecording) (htoken : token ≠ "")
    (hvalid : filterInvalidRecordings backupRecordings ≠ [])
    (hresult : result = loadVoiceRecordings freshId (some token) (BackendResponse.ok data)
      (some backupRecordings) current) :
    ∀ (i j : Nat) (hi : i < result.length) (hj : j < result.length), i ≠ j →
      ∀ ti tj : Int, result[i].timestamp = some ti → result[j].timestamp = some tj →
      ¬ (result[i].milestone = result[j].milestone ∧ |ti - tj| < 5000) := by
  rw [loadVoiceRecordings_merge_eq freshId token data backupRecordings current htoken hvalid]
    at hresult
  have hpw := uniqueRecordings_pairwise (allRecordings freshId data backupRecordings)
  rw [← hresult, List.pairwise_iff_getElem] at hpw
  intro i j hi hj hij ti tj hti htj hnear
  have hij2 : isNear result[i] result[j] = true :=
    (isNear_iff _ _).mpr ⟨hnear.1, ti, tj, hti, htj, hnear.2⟩
  rcases Nat.lt_or_gt_of_ne hij with hlt | hgt
  · have := hpw i j hi hj hlt
    rw [hij2] at this
    exact absurd this (by simp)
  · have := hpw j i hj hi hgt
    rw [isNear_symm, hij2] at this
    exact absurd this (by simp)

theorem loadVoiceRecordings_merge_no_near_pair_witness :
    ("token" ≠ "" ∧ filterInvalidRecordings exampleBackup ≠ [] ∧
      (exampleMerged.get ⟨0, by decide⟩).timestamp = some 0 ∧
      (exampleMerged.get ⟨1, by decide⟩).timestamp = some 0) ∧
    ¬ ((exampleMerged.get ⟨0, by decide⟩).milestone =
        (exampleMerged.get ⟨1, by decide⟩).milestone ∧ |(0 : Int) - 0| < 5000) :=
  ⟨⟨by decide, by decide, by decide, by decide⟩,
    loadVoiceRecordings_merge_no_near_pair (fun _ => "fresh") "token" exampleData exampleBackup
      [] exampleMerged (by decide) (by decide) rfl 0 1 (by decide) (by decide) (by decide)
      0 0 (by decide) (by decide)⟩

/-- C2 as stated fails: with backend recordings at 0 ms and 4000 ms and a backup
recording at 8000 ms, all of milestone 1, the merge drops the last two, and the
dropped recording at 8000 ms is not within 5000 ms of any recording that is kept. -/
theorem loadVoiceRecordings_merge_drops_far_recording :
    ¬ (∀ (freshId : Nat → String) (token : String) (data : List Submission)
        (backupRecordings : List BackupRecording) (current : List MilestoneRecording),
        token ≠ "" → filterInvalidRecordings backupRecordings ≠ [] →
        ∀ r ∈ allRecordings freshId data backupRecordings,
          r ∉ loadVoiceRecordings freshId (some token) (BackendResponse.ok data)
            (some backupRecordings) current →
          ∃ k ∈ loadVoiceRecordings freshId (some token) (BackendResponse.ok data)
            (some backupRecordings) current,
            k.milestone = r.milestone ∧
              ∃ tk tr : Int, k.timestamp = some tk ∧ r.timestamp = some tr ∧
                |tk - tr| < 5000) := by
  intro h
  have h1 := h (fun _ => "fresh") "token" exampleData exampleBackup [] (by decide) (by decide)
    (fromBackup exampleBackupRecording "fresh") (by decide) (by decide)
  have h2 : ∃ k ∈ loadVoiceRecordings (fun _ => "fresh") (some "token")
      (BackendResponse.ok exampleData) (some exampleBackup) [],
      isNear k (fromBackup exampleBackupRecording "fresh") = true := by
    obtain ⟨k, hk, hnear⟩ := h1
    exact ⟨k, hk, (isNear_iff _ _).mpr hnear⟩
  revert h2
  decide

/-- C2, amended: every recording with a valid timestamp that the merge of
`loadVoiceRecordings` drops has the same milestone as, and a timestamp less than
5000 ms away from, some recording that stands earlier in the merged input list
(which may itself be dropped). -/
theorem loadVoiceRecordings_merge_dropped_has_earlier_near (freshId : Nat → String)
    (token : String) (data : List Submission) (backupRecordings : List BackupRecording)
    (current all : List MilestoneRecording) (htoken : token ≠ "")
    (hvalid : filterInvalidRecordings backupRecordings ≠ [])
    (hall : all = allRecordings freshId data backupRecordings)
    (j : Nat) (hj : j < all.length) (tj : Int) (htj : all[j].timestamp = some tj)
    (hdrop : all[j] ∉ loadVoiceRecordings freshId (some token) (BackendResponse.ok data)
        (some backupRecordings) current) :
    ∃ (k : Nat) (hk : k < all.length), k < j ∧
      all[k].milestone = all[j].milestone ∧
      ∃ tk : Int, all[k].timestamp = some tk ∧ |tk - tj| < 5000 := by
  subst hall
  rw [loadVoiceRecordings_merge_eq freshId token data backupRecordings current htoken hvalid]
    at hdrop
  obtain ⟨k, hk, hkj, hnear⟩ := uniqueRecordings_dropped _ j hj tj htj hdrop
  obtain ⟨hm, x, y, hx, hy, hlt⟩ := (isNear_iff _ _).mp hnear
  have hy2 : y = tj := by
    rw [htj] at hy
    exact (Option.some.inj hy).symm
  exact ⟨k, hk, hkj, hm, x, hx, hy2 ▸ hlt⟩

theorem loadVoiceRecordings_merge_dropped_has_earlier_near_witness :
    ("token" ≠ "" ∧ filterInvalidRecordings exampleBackup ≠ [] ∧
      (exampleAll.get ⟨3, by decide⟩).timestamp = some 8000 ∧
      exampleAll.get ⟨3, by decide⟩ ∉ exampleMerged) ∧
    ∃ (k : Nat) (hk : k < exampleAll.length), k < 3 ∧
      (exampleAll.get ⟨k, hk⟩).milestone = (exampleAll.get ⟨3, by decide⟩).milestone ∧
      ∃ tk : Int, (exampleAll.get ⟨k, hk⟩).timestamp = some tk ∧ |tk - 8000| < 5000 :=
  ⟨⟨by decide, by decide, by decide, by decide⟩,
    loadVoiceRecordings_merge_dropped_has_earlier_near (fun _ => "fresh") "token" exampleData
      exampleBackup [] exampleAll (by decide) (by decide) rfl 3 (by decide) 8000 (by decide)
      (by decide)⟩

/-! ## Recording handlers -/

theorem milestoneRecordingsCount_append_new (cm : Int) (l : List MilestoneRecording)
    (r : MilestoneRecording) (hr : r.milestone = cm) :
    milestoneRecordingsCount cm (l ++ [r]) = milestoneRecordingsCount cm l + 1 := by
  unfold milestoneRecordingsCount
  rw [List.filter_append, List.length_append]
  simp [hr]

theorem addIfNew_of_fresh (r : MilestoneRecording) (prev : List MilestoneRecording)
    (hfresh : ∀ x ∈ prev, x.id ≠ r.id) : addIfNew r prev = prev ++ [r] := by
  unfold addIfNew
  have hnone : prev.find? (fun x => x.id == r.id) = none := by
    rw [List.find?_eq_none]
    intro x hx
    simpa using hfresh x hx
  rw [hnone]

theorem removeOldest_subset (cm : Int) (prev l : List MilestoneRecording)
    (h : removeOldest cm prev = some l) : ∀ x ∈ l, x ∈ prev := by
  unfold removeOldest at h
  cases hhead : (sortByTimestamp (prev.filter (fun r => r.milestone == cm))).head? with
  | none =>
    simp only [hhead] at h
    exact absurd h (by simp)
  | some oldest =>
    simp only [hhead] at h
    intro x hx
    rw [← Option.some.inj h] at hx
    exact (List.mem_filter.mp hx).1

theorem onstop_of_short (captured s : DashboardState) (newId : String) (now : Int)
    (audioBlob : List Nat) (h : captured.recordingTime < 1) :
    onstop captured s newId now audioBlob =
      some { s with toasts := s.toasts ++ ["Recording Too Short"], recordingTime := 0 } := by
  simp [onstop, h]

theorem onstop_of_full (captured s : DashboardState) (newId : String) (now : Int)
    (audioBlob : List Nat) (h : 1 ≤ captured.recordingTime)
    (hcount : 5 ≤ milestoneRecordingsCount captured.currentMilestone
      captured.milestoneRecordings) :
    onstop captured s newId now audioBlob =
      (removeOldest captured.currentMilestone s.milestoneRecordings).map (fun prev =>
        { s with
          milestoneRecordings := prev ++ [newRecording captured newId now audioBlob]
          recordingTime := 0
          backup := s.backup.map (fun backupRecordings =>
            backupRecordings ++ [toBackup (newRecording captured newId now audioBlob)])
          toasts := s.toasts ++ ["Recording Saved"] }) := by
  have h1 : ¬ captured.recordingTime < 1 := by omega
  simp only [onstop, h1, if_false, ge_iff_le, hcount, if_true, Option.map_map]
  rfl

theorem onstop_of_room (captured s : DashboardState) (newId : String) (now : Int)
    (audioBlob : List Nat) (h : 1 ≤ captured.recordingTime)
    (hcount : milestoneRecordingsCount captured.currentMilestone
      captured.milestoneRecordings < 5) :
    onstop captured s newId now audioBlob =
      some { s with
        milestoneRecordings :=
          addIfNew (newRecording captured newId now audioBlob) s.milestoneRecordings
        recordingTime := 0
        backup := s.backup.map (fun backupRecordings =>
          backupRecordings ++ [toBackup (newRecording captured newId now audioBlob)])
        toasts := s.toasts ++ ["Recording Saved"] } := by
  have h1 : ¬ captured.recordingTime < 1 := by omega
  have h2 : ¬ 5 ≤ milestoneRecordingsCount captured.currentMilestone
      captured.milestoneRecordings := by omega
  simp [onstop, h1, h2]

theorem startRecording_of_limit (s : DashboardState) (microphone : Bool)
    (h : 5 ≤ milestoneRecordingsCount s.currentMilestone s.milestoneRecordings) :
    startRecording s microphone =
      { s with toasts := s.toasts ++ ["Recording Limit Reached"] } := by
  simp [startRecording, h]

theorem onstop_appends_past_guard (captured s : DashboardState) (newId : String) (now : Int)
    (audioBlob : List Nat) (hlong : 1 ≤ captured.recordingTime)
    (hguard : milestoneRecordingsCount captured.currentMilestone
      captured.milestoneRecordings < 5)
    (hfresh : ∀ x ∈ s.milestoneRecordings, x.id ≠ newId) :
    ∃ s1, onstop captured s newId now audioBlob = some s1 ∧
      milestoneRecordingsCount captured.currentMilestone s1.milestoneRecordings =
        milestoneRecordingsCount captured.currentMilestone s.milestoneRecordings + 1 := by
  refine ⟨_, onstop_of_room captured s newId now audioBlob hlong hguard, ?_⟩
  show milestoneRecordingsCount captured.currentMilestone
    (addIfNew (newRecording captured newId now audioBlob) s.milestoneRecordings) = _
  rw [addIfNew_of_fresh _ _ hfresh]
  exact milestoneRecordingsCount_append_new _ _ _ rfl

/-- C3, evaluated on the code. With five recordings of the milestone
`startRecording` only shows the limit toast. But `onstop` counts the recordings
of the render in which `startRecording` ran, which passed that guard: a recording
started with four recordings of milestone 1 and stopped when the state holds
five is appended without any eviction, and milestone 1 then has six. -/
theorem onstop_exceeds_limit :
    startRecording exampleFullState true =
        { exampleFullState with
          toasts := exampleFullState.toasts ++ ["Recording Limit Reached"] } ∧
      milestoneRecordingsCount exampleCapturedState.currentMilestone
        exampleCapturedState.milestoneRecordings = 4 ∧
      (startRecording exampleCapturedState true).isRecording = true ∧
      milestoneRecordingsCount 1 exampleFullState.milestoneRecordings = 5 ∧
      (onstop exampleCapturedState exampleFullState "f" 60 [82, 73]).map
          (fun s1 => milestoneRecordingsCount 1 s1.milestoneRecordings) = some 6 := by
  decide

/-- C4: a recording must last at least one second. When recording stops and the
handler reads `recordingTime < 1`, `onstop` returns a state whose
`milestoneRecordings` and localStorage backup are those it started from; and
every recording, and every backup entry, that `onstop` adds has a duration of at
least 1. -/
theorem onstop_minimum_duration (captured s : DashboardState) (newId : String) (now : Int)
    (audioBlob : List Nat) :
    (captured.recordingTime < 1 →
      ∃ s1, onstop captured s newId now audioBlob = some s1 ∧
        s1.milestoneRecordings = s.milestoneRecordings ∧ s1.backup = s.backup) ∧
    (∀ s1, onstop captured s newId now audioBlob = some s1 →
      (∀ r ∈ s1.milestoneRecordings, r ∉ s.milestoneRecordings → r.duration ≥ 1) ∧
      (∀ b1 ∈ s1.backup, ∀ b0 ∈ s.backup, ∀ e ∈ b1, e ∉ b0 → e.duration.getD 0 ≥ 1)) := by
  refine ⟨?_, ?_⟩
  · intro h
    exact ⟨_, onstop_of_short captured s newId now audioBlob h, rfl, rfl⟩
  · intro s1 hs1
    by_cases hshort : captured.recordingTime < 1
    · rw [onstop_of_short captured s newId now audioBlob hshort] at hs1
      cases hs1
      refine ⟨fun r hr hnr => absurd hr hnr, ?_⟩
      intro b1 hb1 b0 hb0 e he hne
      have hb : b1 = b0 := by
        have h1 : s.backup = some b1 := hb1
        have h0 : s.backup = some b0 := hb0
        rw [h1] at h0
        exact Option.some.inj h0
      exact absurd (hb ▸ he) hne
    · have hlong : 1 ≤ captured.recordingTime := by omega
      have hbackup : ∀ (t : DashboardState),
          t.backup = s.backup.map (fun backupRecordings =>
            backupRecordings ++ [toBackup (newRecording captured newId now audioBlob)]) →
          ∀ b1 ∈ t.backup, ∀ b0 ∈ s.backup, ∀ e ∈ b1, e ∉ b0 → e.duration.getD 0 ≥ 1 := by
        intro t ht b1 hb1 b0 hb0 e he hne
        have h1 : t.backup = some b1 := hb1
        have h0 : s.backup = some b0 := hb0
        rw [ht, h0] at h1
        have hb : b0 ++ [toBackup (newRecording captured newId now audioBlob)] = b1 := by
          simpa using h1
        rw [← hb] at he
        rcases List.mem_append.mp he with he0 | he1
        · exact absurd he0 hne
        · have : e = toBackup (newRecording captured newId now audioBlob) := by simpa using he1
          rw [this]
          simpa [toBackup, newRecording] using hlong
      have hnew : ∀ (l : List MilestoneRecording),
          ∀ r ∈ l ++ [newRecording captured newId now audioBlob], r ∉ s.milestoneRecordings →
            (∀ x ∈ l, x ∈ s.milestoneRecordings) → r.duration ≥ 1 := by
        intro l r hr hnr hl
        rcases List.mem_append.mp hr with h0 | h1
        · exact absurd (hl r h0) hnr
        · have : r = newRecording captured newId now audioBlob := by simpa using h1
          rw [this]
          simpa [newRecording] using hlong
      by_cases hfull : 5 ≤ milestoneRecordingsCount captured.currentMilestone
          captured.milestoneRecordings
      · rw [onstop_of_full captured s newId now audioBlob hlong hfull] at hs1
        cases hrem : removeOldest captured.currentMilestone s.milestoneRecordings with
        | none =>
          rw [hrem] at hs1
          exact absurd hs1 (by simp)
        | some prev =>
          rw [hrem] at hs1
          cases hs1
          exact ⟨fun r hr hnr => hnew _ r hr hnr
            (removeOldest_subset _ _ _ hrem), hbackup _ rfl⟩
      · rw [onstop_of_room captured s newId now audioBlob hlong (by omega)] at hs1
        cases hs1
        refine ⟨?_, hbackup _ rfl⟩
        intro r hr hnr
        have hr2 : r ∈ addIfNew (newRecording captured newId now audioBlob)
            s.milestoneRecordings := hr
        unfold addIfNew at hr2
        split at hr2
        · exact absurd hr2 hnr
        · exact hnew _ r hr2 hnr (fun x hx => hx)

theorem onstop_minimum_duration_witness :
    exampleShortState.recordingTime < 1 ∧
    ∃ s1, onstop exampleShortState exampleFullState "f" 60 [82, 73] = some s1 ∧
      s1.milestoneRecordings = exampleFullState.milestoneRecordings ∧
      s1.backup = exampleFullState.backup :=
  ⟨by decide,
    (onstop_minimum_duration exampleShortState exampleFullState "f" 60 [82, 73]).1 (by decide)⟩

/-! ## Filtering, submission, practice section -/

theorem orZero_eq_getD (d : Option Int) : orZero d = d.getD 0 := by
  cases d with
  | none => rfl
  | some x =>
    by_cases hx : x = 0
    · simp [orZero, hx]
    · simp [orZero, hx]

/-- C5: `filterInvalidRecordings` returns, in their original order, exactly the
input recordings whose duration, read as 0 when it is missing, is at least one
second; and filtering twice is filtering once. -/
theorem filterInvalidRecordings_spec (recordings : List BackupRecording) :
    filterInvalidRecordings recordings =
        recordings.filter (fun rec => decide (1 ≤ rec.duration.getD 0)) ∧
      (filterInvalidRecordings recordings).Sublist recordings ∧
      (∀ rec, rec ∈ filterInvalidRecordings recordings ↔
        rec ∈ recordings ∧ 1 ≤ rec.duration.getD 0) ∧
      (∀ rec, (filterInvalidRecordings recordings).count rec =
        if 1 ≤ rec.duration.getD 0 then recordings.count rec else 0) ∧
      filterInvalidRecordings (filterInvalidRecordings recordings) =
        filterInvalidRecordings recordings := by
  have heq : filterInvalidRecordings recordings =
      recordings.filter (fun rec => decide (1 ≤ rec.duration.getD 0)) := by
    unfold filterInvalidRecordings
    apply List.filter_congr
    intro rec _
    simp [orZero_eq_getD]
  refine ⟨heq, ?_, ?_, ?_, ?_⟩
  · rw [heq]
    exact List.filter_sublist _
  · intro rec
    rw [heq]
    simp [List.mem_filter]
  · intro rec
    rw [heq]
    by_cases hrec : 1 ≤ rec.duration.getD 0
    · rw [if_pos hrec]
      exact List.count_filter (by simpa using hrec)
    · rw [if_neg hrec]
      apply List.count_eq_zero.mpr
      intro hmem
      exact hrec (by simpa using (List.mem_filter.mp hmem).2)
  · unfold filterInvalidRecordings
    rw [List.filter_filter]
    apply List.filter_congr
    intro rec _
    simp

/-- C6: `submitRecording` prevents duplicate submissions. For a recording that is
already submitted, or whose id is in `submittingRecordings`, it sends no request
and returns the state it was given, so that `milestoneRecordings`,
`submittingRecordings` and the localStorage backup are unchanged. -/
theorem submitRecording_guard (s : DashboardState) (recording : MilestoneRecording)
    (now : Int) (maxArguments : Nat) (response : SubmitResponse)
    (h : recording.status = Status.submitted ∨ recording.id ∈ s.submittingRecordings) :
    (submitRecording s recording now maxArguments response).2 = [] ∧
      (submitRecording s recording now maxArguments response).1.milestoneRecordings =
        s.milestoneRecordings ∧
      (submitRecording s recording now maxArguments response).1.submittingRecordings =
        s.submittingRecordings ∧
      (submitRecording s recording now maxArguments response).1.backup = s.backup ∧
      (submitRecording s recording now maxArguments response).1 = s := by
  have hres : submitRecording s recording now maxArguments response = (s, []) := by
    unfold submitRecording
    by_cases hin : recording.id ∈ s.submittingRecordings
    · simp [hin]
    · rcases h with hsub | hmem
      · simp [hin, hsub]
      · exact absurd hmem hin
  rw [hres]
  exact ⟨rfl, rfl, rfl, rfl, rfl⟩

theorem submitRecording_guard_witness :
    ((exampleRecording "c" 30).status = Status.submitted ∨
      (exampleRecording "c" 30).id ∈ exampleFullState.submittingRecordings) ∧
    (submitRecording exampleFullState (exampleRecording "c" 30) 70 65536
      SubmitResponse.ok).2 = [] ∧
    (submitRecording exampleFullState (exampleRecording "c" 30) 70 65536
      SubmitResponse.ok).1.milestoneRecordings = exampleFullState.milestoneRecordings ∧
    (submitRecording exampleFullState (exampleRecording "c" 30) 70 65536
      SubmitResponse.ok).1.submittingRecordings = exampleFullState.submittingRecordings ∧
    (submitRecording exampleFullState (exampleRecording "c" 30) 70 65536
      SubmitResponse.ok).1.backup = exampleFullState.backup ∧
    (submitRecording exampleFullState (exampleRecording "c" 30) 70 65536 SubmitResponse.ok).1 =
      exampleFullState :=
  ⟨by decide,
    submitRecording_guard exampleFullState (exampleRecording "c" 30) 70 65536
      SubmitResponse.ok (by decide)⟩

/-- C7, evaluated on the code: for milestone 9 the practice section of the
dashboard is the voice recording card, while `testMilestoneSelection` expects the
word puzzle; the same holds for every milestone from 9 to 19. For milestones 1
to 8 both are the voice recording card. -/
theorem practiceSection_ignores_milestone :
    practiceSection 9 = PracticeKind.voiceRecording ∧
      testMilestoneSelection 9 = PracticeKind.wordPuzzle ∧
      (∀ m : Int, 9 ≤ m → m ≤ 19 →
        practiceSection m = PracticeKind.voiceRecording ∧
          testMilestoneSelection m = PracticeKind.wordPuzzle) ∧
      (∀ m : Int, 1 ≤ m → m ≤ 8 →
        practiceSection m = PracticeKind.voiceRecording ∧
          testMilestoneSelection m = PracticeKind.voiceRecording) := by
  refine ⟨rfl, by decide, ?_, ?_⟩
  · intro m h1 h2
    refine ⟨rfl, ?_⟩
    simp [testMilestoneSelection, h1, h2]
  · intro m h1 h2
    refine ⟨rfl, ?_⟩
    have : ¬ (9 ≤ m) := by omega
    simp [testMilestoneSelection, this]

end LearnerDashboard

namespace VideoUtils

/-! ## URL helpers -/

/-- C8 as stated fails: the relative path `/videos/youtube.com-intro.mp4` is a
YouTube URL for `isYouTubeUrl`, and `getVideoUrl` prepends the Railway base URL
to it. -/
theorem getVideoUrl_changes_relative_youtube_path :
    ¬ (∀ url : List Char, isYouTubeUrl url = true → getVideoUrl url = url) := by
  intro h
  have h1 := h "/videos/youtube.com-intro.mp4".toList (by decide)
  revert h1
  decide

/-- C8, amended: `getVideoUrl` returns as-is every YouTube URL that starts with
`http`. -/
theorem getVideoUrl_youtube_http (url : List Char) (hyt : isYouTubeUrl url = true)
    (hhttp : startsWith url "http".toList = true) : getVideoUrl url = url := by
  have _ := hyt
  unfold getVideoUrl
  rw [if_pos hhttp]

theorem getVideoUrl_youtube_http_witness :
    (isYouTubeUrl "https://www.youtube.com/watch?v=dQw4w9WgXcQ".toList = true ∧
      startsWith "https://www.youtube.com/watch?v=dQw4w9WgXcQ".toList "http".toList = true) ∧
    getVideoUrl "https://www.youtube.com/watch?v=dQw4w9WgXcQ".toList =
      "https://www.youtube.com/watch?v=dQw4w9WgXcQ".toList :=
  ⟨⟨by decide, by decide⟩,
    getVideoUrl_youtube_http "https://www.youtube.com/watch?v=dQw4w9WgXcQ".toList (by decide)
      (by decide)⟩

/-- C9: for a path that does not start with `http`, `getVideoUrl`,
`getThumbnailUrl` and `getAudioUrl` return the same string: the Railway base URL
followed by the path when the path starts with `/`, and the base URL followed by
`/` and the path otherwise. -/
theorem relative_path_urls (path : List Char)
    (hrel : startsWith path "http".toList = false) :
    getThumbnailUrl path = getVideoUrl path ∧ getAudioUrl path = getVideoUrl path ∧
      (startsWith path "/".toList = true →
        getVideoUrl path = "https://backend-production-7e4df.up.railway.app".toList ++ path) ∧
      (startsWith path "/".toList = false →
        getVideoUrl path =
          "https://backend-production-7e4df.up.railway.app".toList ++ "/".toList ++ path) := by
  have hnot : ¬ startsWith path "http".toList = true := by
    rw [hrel]; exact Bool.false_ne_true
  refine ⟨rfl, rfl, ?_, ?_⟩
  · intro h
    unfold getVideoUrl
    rw [if_neg hnot, if_pos h]
    rfl
  · intro h
    have hnot2 : ¬ startsWith path "/".toList = true := by
      rw [h]; exact Bool.false_ne_true
    unfold getVideoUrl
    rw [if_neg hnot, if_neg hnot2]
    rfl

theorem relative_path_urls_witness :
    startsWith "videos/milestone-1/video.mp4".toList "http".toList = false ∧
    getThumbnailUrl "videos/milestone-1/video.mp4".toList =
      getVideoUrl "videos/milestone-1/video.mp4".toList ∧
    getAudioUrl "videos/milestone-1/video.mp4".toList =
      getVideoUrl "videos/milestone-1/video.mp4".toList ∧
    getVideoUrl "videos/milestone-1/video.mp4".toList =
      "https://backend-production-7e4df.up.railway.app/videos/milestone-1/video.mp4".toList :=
  ⟨by decide,
    (relative_path_urls "videos/milestone-1/video.mp4".toList (by decide)).1,
    (relative_path_urls "videos/milestone-1/video.mp4".toList (by decide)).2.1,
    (relative_path_urls "videos/milestone-1/video.mp4".toList (by decide)).2.2.2 (by decide)⟩

/-! ## The video id pattern -/

theorem run_seq {R : Type} (a b : Re) (s : List Char) (cap : Option (List Char))
    (k : List Char → Option (List Char) → Option R) :
    (Re.seq a b).run s cap k = a.run s cap (fun s1 cap1 => b.run s1 cap1 k) := rfl

theorem countRun_append {R : Type} (p : CharPattern) (k : List Char → Option R) :
    ∀ (s rest : List Char), (∀ c ∈ s, p.test c = true) →
      countRun p s.length (s ++ rest) k = k rest := by
  intro s
  induction s with
  | nil => intro rest _; simp [countRun]
  | cons c cs ih =>
    intro rest h
    simp only [List.length_cons, List.cons_append, countRun, h c (List.mem_cons_self _ _),
      if_true]
    exact ih rest (fun x hx => h x (List.mem_cons_of_mem _ hx))

theorem run_lit_append {R : Type} (k : List Char → Option (List Char) → Option R)
    (cap : Option (List Char)) :
    ∀ (l rest : List Char), (Re.lit l).run (l ++ rest) cap k = k rest cap := by
  intro l
  induction l with
  | nil => intro rest; simp [Re.lit, Re.run]
  | cons c cs ih =>
    intro rest
    simp [Re.lit, Re.run, CharPattern.test, ih]

theorem starRun_none_of_suffix {R : Type} (p : CharPattern) (k : List Char → Option R) :
    ∀ (s : List Char), (∀ t, t <:+ s → k t = none) → starRun p s k = none := by
  intro s
  induction s with
  | nil => intro h; simpa [starRun] using h [] (List.suffix_refl _)
  | cons c cs ih =>
    intro h
    have hrec := ih (fun t ht => h t (ht.trans (List.suffix_cons c cs)))
    have hk := h (c :: cs) (List.suffix_refl _)
    unfold starRun
    split
    · rw [hrec]; exact hk
    · exact hk

theorem starRun_cons_of_none {R : Type} (p : CharPattern) (k : List Char → Option R)
    (c : Char) (cs : List Char) (hrest : starRun p cs k = none) :
    starRun p (c :: cs) k = k (c :: cs) := by
  rw [starRun]
  split
  · rw [hrest]
  · rfl

theorem starRun_cons_of_some {R : Type} (p : CharPattern) (k : List Char → Option R)
    (c : Char) (cs : List Char) (r : R) (hc : p.test c = true)
    (hrest : starRun p cs k = some r) : starRun p (c :: cs) k = some r := by
  rw [starRun, if_pos hc, hrest]

theorem run_plus_none_of_suffix {R : Type} (p : CharPattern) (cap : Option (List Char))
    (k : List Char → Option (List Char) → Option R) (s : List Char)
    (h : ∀ t, t <:+ s → k t cap = none) : (Re.plus p).run s cap k = none := by
  cases s with
  | nil => simp [Re.run]
  | cons c cs =>
    simp only [Re.run]
    split
    · exact starRun_none_of_suffix p _ cs (fun t ht => h t (ht.trans (List.suffix_cons c cs)))
    · rfl

theorem beq_false_of_toNat_ne (c d : Char) (h : c.toNat ≠ d.toNat) : (c == d) = false := by
  rw [beq_eq_false_iff_ne]
  intro hcd
  exact h (by rw [hcd])

theorem videoIdChar_toNat (c : Char) (h : isVideoIdChar c = true) :
    (65 ≤ c.toNat ∧ c.toNat ≤ 90) ∨ (97 ≤ c.toNat ∧ c.toNat ≤ 122) ∨
      (48 ≤ c.toNat ∧ c.toNat ≤ 57) ∨ c.toNat = 95 ∨ c.toNat = 45 := by
  simp only [isVideoIdChar, Bool.or_eq_true, Bool.and_eq_true, decide_eq_true_eq,
    beq_iff_eq] at h
  omega

theorem videoIdChar_ne (c d : Char) (h : isVideoIdChar c = true)
    (hd : d.toNat = 34 ∨ d.toNat = 38 ∨ d.toNat = 63 ∨ d.toNat = 47 ∨ d.toNat = 61) :
    (c == d) = false := by
  apply beq_false_of_toNat_ne
  have := videoIdChar_toNat c h
  omega

theorem videoIdChar_not_space (c : Char) (h : isVideoIdChar c = true) : isSpace c = false := by
  have := videoIdChar_toNat c h
  simp only [isSpace, Bool.or_eq_false_iff, Bool.and_eq_false_iff, beq_eq_false_iff_ne, ne_eq,
    decide_eq_false_iff_not]
  omega

theorem videoIdChar_not_lineTerminator (c : Char) (h : isVideoIdChar c = true) :
    isLineTerminator c = false := by
  have := videoIdChar_toNat c h
  simp only [isLineTerminator, Bool.or_eq_false_iff, beq_eq_false_iff_ne, ne_eq]
  omega

theorem idClass_test (c : Char) (h : isVideoIdChar c = true) : idClass.test c = true := by
  simp [idClass, CharPattern.test, ClassAtom.test, videoIdChar_not_space c h,
    videoIdChar_ne c '"' h (by decide), videoIdChar_ne c '&' h (by decide),
    videoIdChar_ne c '?' h (by decide), videoIdChar_ne c '/' h (by decide)]

theorem run_idGroup {R : Type} (id : List Char) (cap : Option (List Char))
    (k : List Char → Option (List Char) → Option R) (hlen : id.length = 11)
    (hchars : ∀ c ∈ id, isVideoIdChar c = true) :
    idGroup.run id cap k = k [] (some id) := by
  have h := countRun_append idClass
    (fun s1 => k s1 (some (id.take (id.length - s1.length)))) id []
    (fun c hc => idClass_test c (hchars c hc))
  rw [List.append_nil] at h
  simp only [idGroup, Re.run]
  rw [← hlen, h]
  simp

theorem run_slash_none {R : Type} (r : Re) (t : List Char) (cap : Option (List Char))
    (k : List Char → Option (List Char) → Option R) (h : ∀ c ∈ t, (c == '/') = false) :
    (Re.seq (Re.one (CharPattern.char '/')) r).run t cap k = none := by
  cases t with
  | nil => simp [Re.run]
  | cons c cs => simp [Re.run, CharPattern.test, h c (List.mem_cons_self _ _)]

theorem run_last_slash_none {R : Type} (t : List Char) (cap : Option (List Char))
    (k : List Char → Option (List Char) → Option R) (h : ∀ c ∈ t, (c == '/') = false) :
    (Re.one (CharPattern.char '/')).run t cap k = none := by
  cases t with
  | nil => simp [Re.run]
  | cons c cs => simp [Re.run, CharPattern.test, h c (List.mem_cons_self _ _)]

theorem run_query_none {R : Type} (r : Re) (t : List Char) (cap : Option (List Char))
    (k : List Char → Option (List Char) → Option R)
    (h : ∀ c ∈ t, (c == '?') = false ∧ (c == '&') = false) :
    (Re.seq (Re.one (CharPattern.cls false [ClassAtom.char '?', ClassAtom.char '&'])) r).run
      t cap k = none := by
  cases t with
  | nil => simp [Re.run]
  | cons c cs =>
    have hc := h c (List.mem_cons_self _ _)
    simp [Re.run, CharPattern.test, ClassAtom.test, hc.1, hc.2]

theorem pathAlternative_none {R : Type} (s : List Char) (cap : Option (List Char))
    (k : List Char → Option (List Char) → Option R) (h : ∀ c ∈ s, (c == '/') = false) :
    pathAlternative.run s cap k = none := by
  unfold pathAlternative
  rw [run_seq]
  apply run_plus_none_of_suffix
  intro t ht
  exact run_slash_none _ t cap k (fun c hc => h c (ht.subset hc))

theorem pathAlternative_embed_none {R : Type} (id : List Char) (cap : Option (List Char))
    (k : List Char → Option (List Char) → Option R) (h : ∀ c ∈ id, (c == '/') = false) :
    pathAlternative.run ('e' :: 'm' :: 'b' :: 'e' :: 'd' :: '/' :: id) cap k = none := by
  unfold pathAlternative
  rw [run_seq]
  apply run_plus_none_of_suffix
  intro t ht
  simp only [List.suffix_cons_iff] at ht
  rcases ht with rfl | rfl | rfl | rfl | rfl | rfl | ht
  · simp [Re.run, CharPattern.test]
  · simp [Re.run, CharPattern.test]
  · simp [Re.run, CharPattern.test]
  · simp [Re.run, CharPattern.test]
  · simp [Re.run, CharPattern.test]
  · rw [run_seq]
    have hone : (Re.one (CharPattern.char '/')).run ('/' :: id) cap
        (fun s1 cap1 =>
          (Re.seq (Re.plus CharPattern.dot) (Re.one (CharPattern.char '/'))).run s1 cap1 k) =
        (Re.seq (Re.plus CharPattern.dot) (Re.one (CharPattern.char '/'))).run id cap k := by
      simp [Re.run, CharPattern.test]
    rw [hone, run_seq]
    apply run_plus_none_of_suffix
    intro u hu
    exact run_last_slash_none u cap k (fun c hc => h c (hu.subset hc))
  · exact run_slash_none _ t cap k (fun c hc => h c (ht.subset hc))

theorem embedAlternative_watch_none {R : Type} (s : List Char) (cap : Option (List Char))
    (k : List Char → Option (List Char) → Option R) :
    embedAlternative.run ('w' :: s) cap k = none := by
  simp [embedAlternative, Re.run, CharPattern.test]

theorem embedAlternative_embed {R : Type} (s : List Char) (cap : Option (List Char))
    (k : List Char → Option (List Char) → Option R) (r : R) (hk : k s cap = some r) :
    embedAlternative.run ('e' :: 'm' :: 'b' :: 'e' :: 'd' :: '/' :: s) cap k = some r := by
  simp [embedAlternative, Re.run, Re.lit, CharPattern.test, hk]

theorem queryAlternative_watch {R : Type} (id : List Char) (cap : Option (List Char))
    (k : List Char → Option (List Char) → Option R) (r : R) (hk : k id cap = some r)
    (hchars : ∀ c ∈ id, isVideoIdChar c = true) :
    queryAlternative.run ('w' :: 'a' :: 't' :: 'c' :: 'h' :: '?' :: 'v' :: '=' :: id) cap k =
      some r := by
  unfold queryAlternative
  rw [run_seq]
  simp only [Re.run]
  have htail : starRun CharPattern.dot ('v' :: '=' :: id)
      (fun s1 => (Re.seq
        (Re.one (CharPattern.cls false [ClassAtom.char '?', ClassAtom.char '&']))
        (Re.lit "v=".toList)).run s1 cap k) = none := by
    apply starRun_none_of_suffix
    intro t ht
    apply run_query_none
    intro c hc
    have hmem := ht.subset hc
    simp only [List.mem_cons] at hmem
    rcases hmem with rfl | rfl | hmem
    · exact ⟨by decide, by decide⟩
    · exact ⟨by decide, by decide⟩
    · exact ⟨videoIdChar_ne c '?' (hchars c hmem) (by decide),
        videoIdChar_ne c '&' (hchars c hmem) (by decide)⟩
  have hq : starRun CharPattern.dot ('?' :: 'v' :: '=' :: id)
      (fun s1 => (Re.seq
        (Re.one (CharPattern.cls false [ClassAtom.char '?', ClassAtom.char '&']))
        (Re.lit "v=".toList)).run s1 cap k) = some r := by
    rw [starRun_cons_of_none _ _ _ _ htail]
    simp [Re.run, Re.lit, CharPattern.test, ClassAtom.test, hk]
  exact starRun_cons_of_some _ _ _ _ r (by decide)
    (starRun_cons_of_some _ _ _ _ r (by decide)
      (starRun_cons_of_some _ _ _ _ r (by decide)
        (starRun_cons_of_some _ _ _ _ r (by decide)
          (starRun_cons_of_some _ _ _ _ r (by decide) hq))))

theorem youtubeRegex_run_of_ne {R : Type} (c : Char) (s : List Char)
    (cap : Option (List Char)) (k : List Char → Option (List Char) → Option R)
    (hc : (c == 'y') = false) : youtubeRegex.run (c :: s) cap k = none := by
  simp [youtubeRegex, Re.run, Re.lit, CharPattern.test, hc]

theorem regexMatch_skip (c : Char) (s : List Char) (hc : (c == 'y') = false) :
    regexMatch youtubeRegex (c :: s) = regexMatch youtubeRegex s := by
  rw [regexMatch, youtubeRegex_run_of_ne c s none _ hc]

theorem regexMatch_of_some (re : Re) (c : Char) (s : List Char) (m : Option (List Char))
    (h : re.run (c :: s) none (fun _ cap => some cap) = some m) :
    regexMatch re (c :: s) = some m := by
  rw [regexMatch, h]

theorem isPrefixOf_append_self (sub rest : List Char) : sub.isPrefixOf (sub ++ rest) = true := by
  induction sub with
  | nil => simp
  | cons c cs ih => simp [ih]

theorem includes_append (sub : List Char) :
    ∀ (pre rest : List Char), includes (pre ++ (sub ++ rest)) sub = true := by
  intro pre
  induction pre with
  | nil =>
    intro rest
    cases hs : sub ++ rest with
    | nil =>
      have : sub = [] := (List.append_eq_nil.mp hs).1
      simp [includes, this]
    | cons c cs =>
      have hpre : sub.isPrefixOf (c :: cs) = true := by
        rw [← hs]
        exact isPrefixOf_append_self sub rest
      show (sub.isPrefixOf (c :: cs) || includes cs sub) = true
      rw [hpre]
      rfl
  | cons c cs ih =>
    intro rest
    rw [List.cons_append, includes, ih rest]
    simp

theorem run_alt_of_none {R : Type} (a b : Re) (s : List Char) (cap : Option (List Char))
    (k : List Char → Option (List Char) → Option R) (h : a.run s cap k = none) :
    (Re.alt a b).run s cap k = b.run s cap k := by
  rw [Re.run, h]

theorem run_alt_of_some {R : Type} (a b : Re) (s : List Char) (cap : Option (List Char))
    (k : List Char → Option (List Char) → Option R) (r : R) (h : a.run s cap k = some r) :
    (Re.alt a b).run s cap k = some r := by
  rw [Re.run, h]

theorem videoIdChar_not_slash (id : List Char) (hchars : ∀ c ∈ id, isVideoIdChar c = true) :
    ∀ c ∈ id, (c == '/') = false :=
  fun c hc => videoIdChar_ne c '/' (hchars c hc) (by decide)

/-- C10: for every 11-character id over `[A-Za-z0-9_-]`,
`extractYouTubeVideoId` returns the id for the watch URL, the short URL and the
embed URL built from it. -/
theorem extractYouTubeVideoId_standard_urls (id : List Char) (hlen : id.length = 11)
    (hchars : ∀ c ∈ id, isVideoIdChar c = true) :
    extractYouTubeVideoId ("https://www.youtube.com/watch?v=".toList ++ id) = some id ∧
      extractYouTubeVideoId ("https://youtu.be/".toList ++ id) = some id ∧
      extractYouTubeVideoId ("https://www.youtube.com/embed/".toList ++ id) = some id := by
  have hgroup : idGroup.run id none (fun _ cap => some cap) = some (some id) :=
    run_idGroup id none _ hlen hchars
  have hslash := videoIdChar_not_slash id hchars
  refine ⟨?_, ?_, ?_⟩
  · have hyt : isYouTubeUrl ("https://www.youtube.com/watch?v=".toList ++ id) = true := by
      have := includes_append "youtube.com".toList "https://www.".toList
        ("/watch?v=".toList ++ id)
      unfold isYouTubeUrl
      rw [show "https://www.youtube.com/watch?v=".toList ++ id =
        "https://www.".toList ++ ("youtube.com".toList ++ ("/watch?v=".toList ++ id)) from rfl,
        this]
      rfl
    have hrun : youtubeRegex.run
        ('y' :: 'o' :: 'u' :: 't' :: 'u' :: 'b' :: 'e' :: '.' :: 'c' :: 'o' :: 'm' :: '/' ::
          'w' :: 'a' :: 't' :: 'c' :: 'h' :: '?' :: 'v' :: '=' :: id) none
        (fun _ cap => some cap) = some (some id) := by
      have hpath : ∀ c ∈ 'w' :: 'a' :: 't' :: 'c' :: 'h' :: '?' :: 'v' :: '=' :: id,
          (c == '/') = false := by
        intro c hc
        simp only [List.mem_cons] at hc
        rcases hc with rfl | rfl | rfl | rfl | rfl | rfl | rfl | rfl | hc
        all_goals first | decide | exact hslash c hc
      have hlit := run_lit_append
        (fun s1 cap1 =>
          (Re.alt pathAlternative (Re.alt embedAlternative queryAlternative)).run s1 cap1
            (fun s2 cap2 => idGroup.run s2 cap2 (fun _ cap => some cap)))
        none "youtube.com/".toList
        ('w' :: 'a' :: 't' :: 'c' :: 'h' :: '?' :: 'v' :: '=' :: id)
      have halts : (Re.alt pathAlternative (Re.alt embedAlternative queryAlternative)).run
          ('w' :: 'a' :: 't' :: 'c' :: 'h' :: '?' :: 'v' :: '=' :: id) none
          (fun s2 cap2 => idGroup.run s2 cap2 (fun _ cap => some cap)) = some (some id) := by
        rw [run_alt_of_none _ _ _ _ _ (pathAlternative_none _ _ _ hpath),
          run_alt_of_none _ _ _ _ _ (embedAlternative_watch_none _ _ _),
          queryAlternative_watch id none _ (some id) hgroup hchars]
      rw [halts] at hlit
      unfold youtubeRegex
      rw [run_seq]
      apply run_alt_of_some
      rw [run_seq]
      exact hlit
    have hmatch : regexMatch youtubeRegex ("https://www.youtube.com/watch?v=".toList ++ id) =
        some (some id) := by
      rw [show "https://www.youtube.com/watch?v=".toList ++ id =
        'h' :: 't' :: 't' :: 'p' :: 's' :: ':' :: '/' :: '/' :: 'w' :: 'w' :: 'w' :: '.' ::
          'y' :: 'o' :: 'u' :: 't' :: 'u' :: 'b' :: 'e' :: '.' :: 'c' :: 'o' :: 'm' :: '/' ::
          'w' :: 'a' :: 't' :: 'c' :: 'h' :: '?' :: 'v' :: '=' :: id from rfl]
      iterate 12 rw [regexMatch_skip _ _ (by decide)]
      exact regexMatch_of_some _ _ _ _ hrun
    unfold extractYouTubeVideoId
    rw [hyt, hmatch]
    rfl
  · have hyt : isYouTubeUrl ("https://youtu.be/".toList ++ id) = true := by
      have := includes_append "youtu.be".toList "https://".toList ("/".toList ++ id)
      unfold isYouTubeUrl
      rw [show "https://youtu.be/".toList ++ id =
        "https://".toList ++ ("youtu.be".toList ++ ("/".toList ++ id)) from rfl, this]
      simp
    have hrun : youtubeRegex.run
        ('y' :: 'o' :: 'u' :: 't' :: 'u' :: '.' :: 'b' :: 'e' :: '/' :: id) none
        (fun _ cap => some cap) = some (some id) := by
      have hlit := run_lit_append
        (fun s2 cap2 => idGroup.run s2 cap2 (fun _ cap => some cap)) none
        "youtu.be/".toList id
      rw [hgroup] at hlit
      have hfirst : (Re.seq (Re.lit "youtube.com/".toList)
          (Re.alt pathAlternative (Re.alt embedAlternative queryAlternative))).run
          ('y' :: 'o' :: 'u' :: 't' :: 'u' :: '.' :: 'b' :: 'e' :: '/' :: id) none
          (fun s2 cap2 => idGroup.run s2 cap2 (fun _ cap => some cap)) = none := by
        simp [Re.run, Re.lit, CharPattern.test]
      unfold youtubeRegex
      rw [run_seq, run_alt_of_none _ _ _ _ _ hfirst]
      exact hlit
    have hmatch : regexMatch youtubeRegex ("https://youtu.be/".toList ++ id) =
        some (some id) := by
      rw [show "https://youtu.be/".toList ++ id =
        'h' :: 't' :: 't' :: 'p' :: 's' :: ':' :: '/' :: '/' ::
          'y' :: 'o' :: 'u' :: 't' :: 'u' :: '.' :: 'b' :: 'e' :: '/' :: id from rfl]
      iterate 8 rw [regexMatch_skip _ _ (by decide)]
      exact regexMatch_of_some _ _ _ _ hrun
    unfold extractYouTubeVideoId
    rw [hyt, hmatch]
    rfl
  · have hyt : isYouTubeUrl ("https://www.youtube.com/embed/".toList ++ id) = true := by
      have := includes_append "youtube.com".toList "https://www.".toList
        ("/embed/".toList ++ id)
      unfold isYouTubeUrl
      rw [show "https://www.youtube.com/embed/".toList ++ id =
        "https://www.".toList ++ ("youtube.com".toList ++ ("/embed/".toList ++ id)) from rfl,
        this]
      rfl
    have hrun : youtubeRegex.run
        ('y' :: 'o' :: 'u' :: 't' :: 'u' :: 'b' :: 'e' :: '.' :: 'c' :: 'o' :: 'm' :: '/' ::
          'e' :: 'm' :: 'b' :: 'e' :: 'd' :: '/' :: id) none
        (fun _ cap => some cap) = some (some id) := by
      have hlit := run_lit_append
        (fun s1 cap1 =>
          (Re.alt pathAlternative (Re.alt embedAlternative queryAlternative)).run s1 cap1
            (fun s2 cap2 => idGroup.run s2 cap2 (fun _ cap => some cap)))
        none "youtube.com/".toList ('e' :: 'm' :: 'b' :: 'e' :: 'd' :: '/' :: id)
      have halts : (Re.alt pathAlternative (Re.alt embedAlternative queryAlternative)).run
          ('e' :: 'm' :: 'b' :: 'e' :: 'd' :: '/' :: id) none
          (fun s2 cap2 => idGroup.run s2 cap2 (fun _ cap => some cap)) = some (some id) := by
        rw [run_alt_of_none _ _ _ _ _ (pathAlternative_embed_none id none _ hslash)]
        exact run_alt_of_some _ _ _ _ _ _
          (embedAlternative_embed id none _ (some id) hgroup)
      rw [halts] at hlit
      unfold youtubeRegex
      rw [run_seq]
      apply run_alt_of_some
      rw [run_seq]
      exact hlit
    have hmatch : regexMatch youtubeRegex ("https://www.youtube.com/embed/".toList ++ id) =
        some (some id) := by
      rw [show "https://www.youtube.com/embed/".toList ++ id =
        'h' :: 't' :: 't' :: 'p' :: 's' :: ':' :: '/' :: '/' :: 'w' :: 'w' :: 'w' :: '.' ::
          'y' :: 'o' :: 'u' :: 't' :: 'u' :: 'b' :: 'e' :: '.' :: 'c' :: 'o' :: 'm' :: '/' ::
          'e' :: 'm' :: 'b' :: 'e' :: 'd' :: '/' :: id from rfl]
      iterate 12 rw [regexMatch_skip _ _ (by decide)]
      exact regexMatch_of_some _ _ _ _ hrun
    unfold extractYouTubeVideoId
    rw [hyt, hmatch]
    rfl

theorem extractYouTubeVideoId_standard_urls_witness :
    ("dQw4w9WgXcQ".toList.length = 11 ∧ ∀ c ∈ "dQw4w9WgXcQ".toList, isVideoIdChar c = true) ∧
    extractYouTubeVideoId ("https://www.youtube.com/watch?v=".toList ++ "dQw4w9WgXcQ".toList) =
      some "dQw4w9WgXcQ".toList ∧
    extractYouTubeVideoId ("https://youtu.be/".toList ++ "dQw4w9WgXcQ".toList) =
      some "dQw4w9WgXcQ".toList ∧
    extractYouTubeVideoId ("https://www.youtube.com/embed/".toList ++ "dQw4w9WgXcQ".toList) =
      some "dQw4w9WgXcQ".toList :=
  ⟨⟨by decide, by decide⟩,
    extractYouTubeVideoId_standard_urls "dQw4w9WgXcQ".toList (by decide) (by decide)⟩

end VideoUtils

namespace LearnerDashboard

/-! ## Base64 round trip -/

theorem base64Value_digit : ∀ n < 64, base64Value (base64Digit n) = some n := by
  decide

theorem base64Digit_ne_pad : ∀ n < 64, base64Digit n ≠ '=' := by
  decide

theorem base64Decode_btoa (b : List Nat) :
    (∀ x ∈ b, x < 256) → base64Decode (btoa b) = some b := by
  induction b using btoa.induct with
  | case1 a b c rest ih =>
    intro h
    have ha : a < 256 := h a (by simp)
    have hb : b < 256 := h b (by simp)
    have hc : c < 256 := h c (by simp)
    have hrest := ih (fun x hx => h x (by simp [hx]))
    have h1 : a / 4 < 64 := by omega
    have h2 : (a % 4) * 16 + b / 16 < 64 := by omega
    have h3 : (b % 16) * 4 + c / 64 < 64 := by omega
    have h4 : c % 64 < 64 := by omega
    rw [btoa, base64Decode]
    simp only [base64Value_digit _ h1, base64Value_digit _ h2, base64Value_digit _ h3,
      base64Value_digit _ h4, base64Digit_ne_pad _ h3, base64Digit_ne_pad _ h4, false_and,
      if_false, hrest, Option.map_some']
    congr 2
    · omega
    · congr 1
      · omega
      · congr 1
        omega
  | case2 a b =>
    intro h
    have ha : a < 256 := h a (by simp)
    have hb : b < 256 := h b (by simp)
    have h1 : a / 4 < 64 := by omega
    have h2 : (a % 4) * 16 + b / 16 < 64 := by omega
    have h3 : (b % 16) * 4 < 64 := by omega
    rw [btoa, base64Decode]
    simp only [base64Value_digit _ h1, base64Value_digit _ h2, base64Value_digit _ h3,
      base64Digit_ne_pad _ h3, false_and, if_false, and_self, if_true]
    congr 2
    · omega
    · congr 1
      omega
  | case3 a =>
    intro h
    have ha : a < 256 := h a (by simp)
    have h1 : a / 4 < 64 := by omega
    have h2 : (a % 4) * 16 < 64 := by omega
    rw [btoa, base64Decode]
    simp only [base64Value_digit _ h1, base64Value_digit _ h2, and_self, if_true]
    congr 2
    omega
  | case4 =>
    intro _
    rw [btoa, base64Decode]

theorem btoa_eq_nil (b : List Nat) : btoa b = [] ↔ b = [] := by
  constructor
  · intro h
    match b, h with
    | [], _ => rfl
    | [_], h => simp [btoa] at h
    | [_, _], h => simp [btoa] at h
    | _ :: _ :: _ :: _, h => simp [btoa] at h
  · intro h
    rw [h, btoa]

theorem uint8Array_of_bytes (b : List Nat) (hb : ∀ x ∈ b, x < 256) : uint8Array b = b := by
  unfold uint8Array
  induction b with
  | nil => rfl
  | cons x xs ih =>
    rw [List.map_cons, ih (fun y hy => hb y (List.mem_cons_of_mem _ hy)),
      Nat.mod_eq_of_lt (hb x (List.mem_cons_self _ _))]

theorem audioDataUrlBytes_audioDataUrl (audioBlob : List Char) :
    audioDataUrlBytes (audioDataUrl audioBlob) = base64Decode audioBlob := by
  unfold audioDataUrlBytes audioDataUrl
  rw [if_pos (List.isPrefixOf_iff_prefix.mpr (List.prefix_append _ _)), List.drop_left]

theorem base64OfBlob_of_bytes (maxArguments : Nat) (b : List Nat) (hb : ∀ x ∈ b, x < 256)
    (hlen : b.length ≤ maxArguments) : base64OfBlob maxArguments b = some (btoa b) := by
  unfold base64OfBlob fromCharCode
  rw [uint8Array_of_bytes b hb, if_pos hlen]
  rfl

theorem base64OfBlob_of_large (maxArguments : Nat) (blob : List Nat)
    (hlarge : maxArguments < blob.length) : base64OfBlob maxArguments blob = none := by
  unfold base64OfBlob fromCharCode uint8Array
  rw [List.length_map, if_neg (by omega)]
  rfl

theorem base64_roundtrip_within_limit (maxArguments : Nat) (b : List Nat)
    (hb : ∀ x ∈ b, x < 256) (hlen : b.length ≤ maxArguments) :
    ∃ base64Data, testBlobConversion maxArguments b = some base64Data ∧
      base64Decode base64Data = some b ∧
      audioDataUrlBytes (audioDataUrl base64Data) = some b ∧
      (base64Data = [] ↔ b = []) := by
  refine ⟨btoa b, base64OfBlob_of_bytes maxArguments b hb hlen, base64Decode_btoa b hb, ?_,
    btoa_eq_nil b⟩
  rw [audioDataUrlBytes_audioDataUrl]
  exact base64Decode_btoa b hb

theorem submitRecording_of_large (s : DashboardState) (recording : MilestoneRecording)
    (now : Int) (maxArguments : Nat) (response : SubmitResponse)
    (hid : recording.id ∉ s.submittingRecordings) (hstatus : recording.status ≠ Status.submitted)
    (hlarge : maxArguments < recording.blob.length) :
    submitRecording s recording now maxArguments response =
      ({ s with
          toasts := s.toasts ++ ["Submission Error"]
          submittingRecordings :=
            setDelete (setAdd s.submittingRecordings recording.id) recording.id },
        []) := by
  unfold submitRecording
  rw [if_neg hid, if_neg hstatus, base64OfBlob_of_large maxArguments recording.blob hlarge]

/-- C13, evaluated on the code: for a draft recording of 130000 bytes and an
engine that accepts fewer than 130000 arguments in a call,
`String.fromCharCode(...bytes)` throws, so that `testBlobConversion` returns
`null` and `submitRecording` shows the error toast and sends no request: no base64
string is built for this byte sequence. -/
theorem submitRecording_large_blob_sends_nothing :
    exampleLargeRecording.blob.length = 130000 ∧
      (∀ x ∈ exampleLargeRecording.blob, x < 256) ∧
      exampleLargeRecording.status = Status.draft ∧
      exampleLargeRecording.id ∉ exampleFullState.submittingRecordings ∧
      ∀ (maxArguments : Nat) (response : SubmitResponse), maxArguments < 130000 →
        testBlobConversion maxArguments exampleLargeRecording.blob = none ∧
        (submitRecording exampleFullState exampleLargeRecording 70 maxArguments response).2 =
          [] ∧
        (submitRecording exampleFullState exampleLargeRecording 70 maxArguments
          response).1.toasts = ["Submission Error"] := by
  have hlen : exampleLargeRecording.blob.length = 130000 := by
    show (List.replicate 130000 0).length = 130000
    exact List.length_replicate 130000 0
  have hid : exampleLargeRecording.id ∉ exampleFullState.submittingRecordings := by
    decide
  have hstatus : exampleLargeRecording.status ≠ Status.submitted := by
    decide
  refine ⟨hlen, ?_, rfl, hid, ?_⟩
  · intro x hx
    have hx0 : x = 0 := by
      have hmem : x ∈ List.replicate 130000 0 := hx
      exact (List.mem_replicate.mp hmem).2
    omega
  · intro maxArguments response hmax
    have hlarge : maxArguments < exampleLargeRecording.blob.length := by omega
    refine ⟨base64OfBlob_of_large maxArguments _ hlarge, ?_, ?_⟩
    · rw [submitRecording_of_large exampleFullState exampleLargeRecording 70 maxArguments
        response hid hstatus hlarge]
    · rw [submitRecording_of_large exampleFullState exampleLargeRecording 70 maxArguments
        response hid hstatus hlarge]
      rfl

end LearnerDashboard

namespace SimpleVoiceEvaluationInterface

/-- C11: `handleSubmitEvaluation` calls `onEvaluate` if and only if
`0 <= score <= 100`; when it does, it calls it once, with the current score,
feedback and tags, and outside that range it does not call it. -/
theorem handleSubmitEvaluation_calls_onEvaluate (s : State) :
    ((handleSubmitEvaluation s).onEvaluate ≠ [] ↔ (0 ≤ s.score ∧ s.score ≤ 100)) ∧
      ((0 ≤ s.score ∧ s.score ≤ 100) →
        (handleSubmitEvaluation s).onEvaluate =
          [{ score := s.score, feedback := s.feedback, tags := s.tags }]) ∧
      (¬ (0 ≤ s.score ∧ s.score ≤ 100) → (handleSubmitEvaluation s).onEvaluate = []) := by
  by_cases h : 0 ≤ s.score ∧ s.score ≤ 100
  · have hc : (decide (s.score < 0) || decide (s.score > 100)) = false := by
      simp only [Bool.or_eq_false_iff, decide_eq_false_iff_not]
      omega
    have hrun : (handleSubmitEvaluation s).onEvaluate =
        [{ score := s.score, feedback := s.feedback, tags := s.tags }] := by
      simp [handleSubmitEvaluation, hc]
    exact ⟨⟨fun _ => h, fun _ => by rw [hrun]; simp⟩, fun _ => hrun, fun hn => absurd h hn⟩
  · have hc : (decide (s.score < 0) || decide (s.score > 100)) = true := by
      simp only [Bool.or_eq_true, decide_eq_true_eq]
      omega
    have hrun : (handleSubmitEvaluation s).onEvaluate = [] := by
      simp [handleSubmitEvaluation, hc]
    exact ⟨⟨fun hne => absurd hrun hne, fun hr => absurd hr h⟩, fun hr => absurd hr h,
      fun _ => hrun⟩

theorem handleSubmitEvaluation_calls_onEvaluate_witness :
    (0 ≤ exampleState.score ∧ exampleState.score ≤ 100) ∧
    (handleSubmitEvaluation exampleState).onEvaluate =
      [{ score := 85, feedback := "Clear vowels", tags := ["clarity", "tone"] }] :=
  ⟨by decide, (handleSubmitEvaluation_calls_onEvaluate exampleState).2.1 (by decide)⟩

end SimpleVoiceEvaluationInterface

namespace DebugWordPuzzles

theorem getItem_setItem (storage : List (String × PuzzleConfig)) (key : String)
    (value : PuzzleConfig) : getItem (setItem storage key value) key = some value := by
  simp [getItem, setItem]

theorem buildGrid_shape :
    (buildGrid defaultGreenBoxes).length = 6 ∧
      ∀ cells ∈ buildGrid defaultGreenBoxes, cells.length = 6 := by
  decide

theorem buildGrid_letters : ∀ row col : Fin 6,
    (cellAt (buildGrid defaultGreenBoxes) row col).map (fun cell => cell.letter) =
      defaultTeluguLetters[6 * row.val + col.val]? := by
  decide

theorem buildGrid_green : ∀ row col : Fin 6,
    (cellAt (buildGrid defaultGreenBoxes) row col).map (fun cell => cell.isGreenBox) =
      some (decide ((row.val, col.val) ∈ [(1, 2), (2, 4), (3, 1), (4, 3)])) := by
  decide

theorem buildGrid_explanations : ∀ row col : Fin 6,
    (cellAt (buildGrid defaultGreenBoxes) row col).all
      (fun cell => decide (cell.explanation ≠ "") == cell.isGreenBox) = true := by
  decide

/-- C12: for every milestone, `createDefaultWordPuzzle` produces a grid of exactly
6 rows of 6 cells in which the cell at `(row, col)` holds
`defaultTeluguLetters[6*row + col]`, `isGreenBox` is true at exactly the positions
(1,2), (2,4), (3,1), (4,3), and a cell's explanation is non-empty if and only if
the cell is a green box; the configuration is stored under the key
`puzzle-<milestone>`, which is its id. -/
theorem createDefaultWordPuzzle_grid (milestone : Int) (now : String)
    (storage : List (String × PuzzleConfig)) :
    (createDefaultWordPuzzle milestone now storage).1.grid.length = 6 ∧
      (∀ cells ∈ (createDefaultWordPuzzle milestone now storage).1.grid, cells.length = 6) ∧
      (∀ row col : Fin 6, ∃ cell,
        cellAt (createDefaultWordPuzzle milestone now storage).1.grid row col = some cell ∧
        some cell.letter = defaultTeluguLetters[6 * row.val + col.val]? ∧
        (cell.isGreenBox = true ↔
          (row.val, col.val) ∈ [(1, 2), (2, 4), (3, 1), (4, 3)]) ∧
        (cell.explanation ≠ "" ↔ cell.isGreenBox = true)) ∧
      (createDefaultWordPuzzle milestone now storage).1.id = "puzzle-" ++ toString milestone ∧
      getItem (createDefaultWordPuzzle milestone now storage).2
          ("puzzle-" ++ toString milestone) =
        some (createDefaultWordPuzzle milestone now storage).1 ∧
      getItem (createDefaultWordPuzzle milestone now storage).2
          (createDefaultWordPuzzle milestone now storage).1.id =
        some (createDefaultWordPuzzle milestone now storage).1 := by
  have hgrid : (createDefaultWordPuzzle milestone now storage).1.grid =
      buildGrid defaultGreenBoxes := rfl
  have hstore : getItem (createDefaultWordPuzzle milestone now storage).2
      ("puzzle-" ++ toString milestone) =
      some (createDefaultWordPuzzle milestone now storage).1 :=
    getItem_setItem storage _ _
  refine ⟨?_, ?_, ?_, rfl, hstore, hstore⟩
  · rw [hgrid]
    exact buildGrid_shape.1
  · rw [hgrid]
    exact buildGrid_shape.2
  · intro row col
    rw [hgrid]
    have hl := buildGrid_letters row col
    have hg := buildGrid_green row col
    have he := buildGrid_explanations row col
    cases hcell : cellAt (buildGrid defaultGreenBoxes) row col with
    | none =>
      rw [hcell] at hg
      simp at hg
    | some cell =>
      rw [hcell] at hl hg he
      simp only [Option.map_some', Option.some.injEq] at hg
      simp only [Option.all_some, beq_iff_eq] at he
      refine ⟨cell, rfl, hl, ?_, ?_⟩
      · rw [hg]
        simp
      · rw [← he]
        simp

end DebugWordPuzzles
